import Mathlib

/-! # moss-webui-backend: the feature extraction and aggregation core

A shallow embedding of `src/simple/road_status.go`, `src/simple/geojson.go`,
`src/simple/metadata.go`, `src/simple/car.go`, `src/simple/person.go` and `src/util`.

Conventions of the embedding:

* Go `int`/`int32` values that are only stored, compared and counted are `Int`.
* `float64` coordinates are only compared and passed to the projector; they are
  modelled as rationals (every finite `float64` is one and `<=` agrees on them).
  The mean congestion level, which the source computes in `float64`, is modelled
  in exact rational arithmetic.
* `util.ToFixed` computes in `float64`: its values are modelled by `F64` (a finite
  rational, an infinity or NaN) and its product and quotient are rounded to the nearest
  `float64`, ties to even (`toF64`).
* A Go `map` is an association list with distinct keys; the order in which
  `range` visits it is left arbitrary (any permutation of the entries).
* A Go `error` is `Option String`, `none` being the `nil` error.
-/

namespace Simple

/-! ## road_status.go -/

/-- The row type `RoadStatus` of `road_status.go`. -/
structure RoadStatus where
  Step : Int
  Id : Int
  Level : Int
deriving DecidableEq, Repr

/-- The row type `RoadStatusStat` of `road_status.go`. -/
structure RoadStatusStat where
  Step : Int
  MeanCongestionLevel : ℚ
  LevelCounts : List Int
deriving DecidableEq, Repr

/-- The statement `step2status[v.Step] = append(step2status[v.Step], v)`:
an existing key gets `v` appended to its slice, a new key gets the slice `[v]`. -/
def appendAt : List (Int × List RoadStatus) → RoadStatus → List (Int × List RoadStatus)
  | [], v => [(v.Step, [v])]
  | (k, g) :: m, v => if k = v.Step then (k, g ++ [v]) :: m else (k, g) :: appendAt m v

/-- The grouping loop `for _, v := range all { step2status[v.Step] = append(...) }`. -/
def step2status (all : List RoadStatus) : List (Int × List RoadStatus) :=
  all.foldl appendAt []

/-- The statement `levelCounts[i]++`. -/
def incrAt : List Int → Nat → List Int
  | [], _ => []
  | c :: cs, 0 => (c + 1) :: cs
  | c :: cs, n + 1 => c :: incrAt cs n

/-- One iteration of the inner loop over `statuses`: the running sum of levels and
the histogram. -/
def accumulate (acc : ℚ × List Int) (status : RoadStatus) : ℚ × List Int :=
  (acc.1 + (status.Level : ℚ),
   if 2 ≤ status.Level ∧ status.Level ≤ 5 then incrAt acc.2 (status.Level - 2).toNat
   else acc.2)

/-- The body of the loop `for step, statuses := range step2status`: the row appended
to `stat` for one group. -/
def mkStat (step : Int) (statuses : List RoadStatus) : RoadStatusStat :=
  let r := statuses.foldl accumulate (0, List.replicate 4 0)
  { Step := step
    MeanCongestionLevel := if statuses.length > 0 then r.1 / (statuses.length : ℚ) else r.1
    LevelCounts := r.2 }

/-- The comparison closure handed to `sort.Slice`. -/
def lessStep (a b : RoadStatusStat) : Bool := decide (a.Step < b.Step)

/-- Insertion of one element into a slice ordered by `less`. -/
def insertBy {α : Type} (less : α → α → Bool) (x : α) : List α → List α
  | [] => [x]
  | y :: ys => if less x y then x :: y :: ys else y :: insertBy less x ys

/-- The call `sort.Slice(stat, less)`, as an insertion sort driven by `less`. -/
def sortSlice {α : Type} (less : α → α → Bool) : List α → List α
  | [] => []
  | x :: xs => insertBy less x (sortSlice less xs)

/-- The aggregation of `GetRoadStatusStatByName` after the rows are fetched, for the
order `visit` in which `range` walks the entries of `step2status`. -/
def statOfVisit (visit : List (Int × List RoadStatus)) : List RoadStatusStat :=
  sortSlice lessStep (visit.map (fun e => mkStat e.1 e.2))

/-- The aggregation of `GetRoadStatusStatByName` with the map visited in insertion
order. -/
def roadStatusStat (all : List RoadStatus) : List RoadStatusStat :=
  statOfVisit (step2status all)

/-- The samples of `all` whose step is `s`, in input order. -/
def samplesAt (all : List RoadStatus) (s : Int) : List RoadStatus :=
  all.filter (fun v => decide (v.Step = s))

/-- The number of samples of `l` whose level is exactly `k`. -/
def levelCount (l : List RoadStatus) (k : Int) : Int :=
  ((l.countP (fun v => decide (v.Level = k)) : Nat) : Int)

/-- The four samples of the worked example: steps 1, 1, 1, 2 with levels 2, 2, 4, 6. -/
def exampleSamples : List RoadStatus :=
  [{ Step := 1, Id := 7, Level := 2 }, { Step := 1, Id := 8, Level := 2 },
   { Step := 1, Id := 9, Level := 4 }, { Step := 2, Id := 7, Level := 6 }]

/-- Samples with negative, unordered and repeated steps. -/
def scatteredSamples : List RoadStatus :=
  [{ Step := 5, Id := 1, Level := 2 }, { Step := -1, Id := 1, Level := 3 },
   { Step := 5, Id := 2, Level := 9 }, { Step := 2, Id := 1, Level := 6 }]

/-! ## util/response.go -/

/-- A Go `error`; `none` is the `nil` error. -/
abbrev GoError := Option String

/-- The envelope `util.Response`, with payload type `δ`. -/
structure Response (δ : Type) where
  Error : String
  Data : Option δ
deriving DecidableEq, Repr

/-- The constructor `util.NewResponse`. -/
def NewResponse {δ : Type} (data : δ) : Response δ := { Error := "", Data := some data }

/-- The constructor `util.NewErrorResponse`: it calls `err.Error()`, which is a nil
dereference (result `none`) when `err` is the nil error. -/
def NewErrorResponse {δ : Type} (err : GoError) : Option (Response δ) :=
  err.map (fun e => { Error := e, Data := none })

/-- How a handler run ends: the responses written with `c.JSON`, in order, and either
a runtime panic or the returned value. -/
inductive Outcome (δ ρ : Type) where
  | panicked (written : List (Nat × Response δ))
  | returned (written : List (Nat × Response δ)) (value : ρ)
deriving DecidableEq, Repr

/-- The pair of statements `c.JSON(status, util.NewErrorResponse(err)); return`. -/
def abort {δ ρ : Type} (status : Nat) (err : GoError) (value : ρ) : Outcome δ ρ :=
  match NewErrorResponse err with
  | none => Outcome.panicked []
  | some r => Outcome.returned [(status, r)] value

/-! ## metadata.go -/

/-- The row type `Metadata` of `metadata.go`. -/
structure Metadata where
  Name : String
  Start : Int
  Steps : Int
  Time : ℚ
  TotalAgents : Int
  Map : String
  MinLng : ℚ
  MinLat : ℚ
  MaxLng : ℚ
  MaxLat : ℚ
  RoadStatusVMin : Option ℚ
  RoadStatusInterval : Option Int
  Version : Int
deriving DecidableEq, Repr

/-! ## geojson.go: data -/

/-- The constant `WGS84CRS`. -/
def WGS84CRS : String := "EPSG:4326"

/-- The enumeration `LaneType`. -/
inductive LaneType where
  | AllLane
  | JunctionLane
  | RoadLane
deriving DecidableEq, Repr

/-- The point type `proj.Coord`. -/
structure Coord where
  X : ℚ
  Y : ℚ
deriving DecidableEq, Repr

/-- A projector, by its method `Transform`. -/
abbrev Projector := Coord → Coord

/-- The type `mapNode`. -/
structure mapNode where
  X : ℚ
  Y : ℚ
deriving DecidableEq, Repr

/-- The type `mapLane` (the field `Type` is spelled `Typ`). -/
structure mapLane where
  ID : Int
  Line : List mapNode
  Typ : Int
deriving DecidableEq, Repr, Inhabited

/-- The type `mapAoi`. -/
structure mapAoi where
  ID : Int
  Positions : List mapNode
deriving DecidableEq, Repr

/-- The type `mapRoad`. -/
structure mapRoad where
  ID : Int
  LaneIDs : List Int
deriving DecidableEq, Repr

/-- The geometry of a feature: `orb.LineString` or `orb.Polygon`, points as
`(first, second)` coordinate. -/
inductive Geometry where
  | LineString (points : List (ℚ × ℚ))
  | Polygon (rings : List (List (ℚ × ℚ)))
deriving DecidableEq, Repr

/-- The type `geojson.Feature`, as far as the handlers fill it. -/
structure Feature where
  ID : Int
  Geometry : Geometry
  Properties : List (String × Int)
deriving DecidableEq, Repr

/-- The function `newGeoJsonLane`; indexing `c[0]`, `c[1]` past the end of a
coordinate slice is a runtime panic (result `none`). -/
def newGeoJsonLane (id : Int) (typ : Int) (coordinates : List (List ℚ)) : Option Feature :=
  (coordinates.mapM (fun (c : List ℚ) =>
      match c.get? 0, c.get? 1 with
      | some a, some b => some (a, b)
      | _, _ => none)).map
    (fun lineString =>
      { ID := id
        Geometry := Geometry.LineString lineString
        Properties := [("id", id), ("type", typ)] })

/-- The helper `lo.FilterMap`; the callback answers `none` when it panics,
`some none` for `(nil, false)` and `some (some y)` for `(y, true)`. -/
def FilterMap {α β : Type} (callback : α → Option (Option β)) : List α → Option (List β)
  | [] => some []
  | x :: xs =>
    match callback x with
    | none => none
    | some r =>
      match FilterMap callback xs with
      | none => none
      | some rest =>
        match r with
        | some y => some (y :: rest)
        | none => some rest

/-- The call `strings.Split(s, sep)` for a one-character separator, on characters. -/
def splitChars (sep : Char) : List Char → List (List Char)
  | [] => [[]]
  | c :: cs =>
    if c = sep then [] :: splitChars sep cs
    else
      match splitChars sep cs with
      | [] => [[c]]
      | p :: ps => (c :: p) :: ps

/-- The call `strings.Split(s, ".")`. -/
def Split (s : String) (sep : Char) : List String :=
  (splitChars sep s.toList).map String.mk

/-! ## geojson.go: the document store -/

/-- The value of the `data.parent_id` condition of a `$match`. -/
inductive ParentFilter where
  | exist
  | gte (bound : Int)
  | lt (bound : Int)
deriving DecidableEq, Repr

/-- The `$match` stages the handlers send for documents of class `lane`. -/
inductive LaneQuery where
  | inBox (parent : ParentFilter) (minX maxX minY maxY : ℚ)
  | driving (vMin : ℚ)
deriving DecidableEq, Repr

/-- What `col.Aggregate` followed by `cur.All` gives back. -/
structure QueryResult (α : Type) where
  aggregateErr : GoError
  allErr : GoError
  rows : List α

/-- One collection of the store, by its answers to the requests of the handlers. -/
structure Collection where
  headerErr : GoError
  decodeErr : GoError
  projection : String
  lanes : LaneQuery → QueryResult mapLane
  roads : QueryResult mapRoad
  aois : ℚ → ℚ → ℚ → ℚ → QueryResult mapAoi

/-- Everything outside the handlers: the metadata table, the document store and the
projection library. -/
structure World where
  QueryMetadata : String → List Metadata × GoError
  mongo : String → String → Collection
  NewProjector : String → String → Except String Projector

/-- A document of class `lane`: the fields under `data` that the queries read. -/
structure LaneDoc where
  id : Int
  typ : Int
  parent_id : Option Int
  nodes : List mapNode
  max_speed : ℚ
deriving DecidableEq, Repr

/-- The store's evaluation of a `data.parent_id` condition on one document. -/
def ParentFilter.holds (f : ParentFilter) (parent_id : Option Int) : Bool :=
  match f, parent_id with
  | _, none => false
  | ParentFilter.exist, some _ => true
  | ParentFilter.gte b, some p => decide (b ≤ p)
  | ParentFilter.lt b, some p => decide (p < b)

/-- The store's evaluation of a lane `$match` on one document. -/
def LaneQuery.holds (q : LaneQuery) (d : LaneDoc) : Bool :=
  match q with
  | LaneQuery.inBox parent minX maxX minY maxY =>
    parent.holds d.parent_id &&
      d.nodes.any (fun n => decide (minX ≤ n.X) && decide (n.X ≤ maxX) &&
        decide (minY ≤ n.Y) && decide (n.Y ≤ maxY))
  | LaneQuery.driving vMin =>
    (ParentFilter.lt 300000000).holds d.parent_id && decide (d.typ = 1) &&
      decide (vMin ≤ d.max_speed)

/-- The `$project` stage of the lane queries. -/
def LaneDoc.project (d : LaneDoc) : mapLane := { ID := d.id, Line := d.nodes, Typ := d.typ }

/-- A store that holds the lane documents `docs` and answers every lane query without
error. -/
def evalLaneQuery (docs : List LaneDoc) (q : LaneQuery) : QueryResult mapLane :=
  { aggregateErr := none, allErr := none, rows := (docs.filter q.holds).map LaneDoc.project }

/-! ## geojson.go: downloadLanes -/

/-- The closure `inMicroscopic` of `downloadLanes`. -/
def inMicroscopic (minXY maxXY : Coord) (n : mapNode) : Bool :=
  decide (minXY.X ≤ n.X) && decide (n.X ≤ maxXY.X) &&
    decide (minXY.Y ≤ n.Y) && decide (n.Y ≤ maxXY.Y)

/-- The closure `convertToLngLat` of `downloadLanes` and `GetRoadlaneByName`. -/
def convertToLngLat (xy2lnglat : Projector) (n : mapNode) : List ℚ :=
  let c := xy2lnglat { X := n.X, Y := n.Y }
  [c.Y, c.X]

/-- The `switch typ` of `downloadLanes`. -/
def parentIDFilter : LaneType → ParentFilter
  | LaneType.AllLane => ParentFilter.exist
  | LaneType.JunctionLane => ParentFilter.gte 300000000
  | LaneType.RoadLane => ParentFilter.lt 300000000

/-- The two statements `minXY := lnglat2xy.Transform(...)`, `maxXY := ...` of
`downloadLanes` (lines 112-113) and of `GetAoiByName` (lines 404-405). -/
def localBounds (m : Metadata) (lnglat2xy : Projector) : Coord × Coord :=
  (lnglat2xy { X := m.MinLat, Y := m.MinLng }, lnglat2xy { X := m.MaxLat, Y := m.MaxLng })

/-- The callback given to `lo.FilterMap` in `downloadLanes`. -/
def laneCallback (minXY maxXY : Coord) (xy2lnglat : Projector) (l : mapLane) :
    Option (Option Feature) :=
  if !(l.Line.any (inMicroscopic minXY maxXY)) then some none
  else
    match newGeoJsonLane l.ID l.Typ (l.Line.map (convertToLngLat xy2lnglat)) with
    | none => none
    | some geoLane => some (some geoLane)

/-- The function `downloadLanes`; the value is `(geojsons, finished)`. -/
def downloadLanes (w : World) (name : String) (typ : LaneType) :
    Outcome (List Feature) (List Feature × Bool) :=
  let metas := (w.QueryMetadata name).1
  let err := (w.QueryMetadata name).2
  if err.isSome then abort 500 err ([], true)
  else
    match metas with
    | [] => abort 404 (some "not found") ([], true)
    | m :: _ =>
      match Split m.Map '.' with
      | [db, coll] =>
        let col := w.mongo db coll
        if col.headerErr.isSome then abort 500 err ([], true)
        else if col.decodeErr.isSome then abort 500 col.decodeErr ([], true)
        else
          match w.NewProjector col.projection WGS84CRS with
          | Except.error e => abort 500 (some e) ([], true)
          | Except.ok xy2lnglat =>
            match w.NewProjector WGS84CRS col.projection with
            | Except.error e => abort 500 (some e) ([], true)
            | Except.ok lnglat2xy =>
              let minXY := (localBounds m lnglat2xy).1
              let maxXY := (localBounds m lnglat2xy).2
              let res := col.lanes
                (LaneQuery.inBox (parentIDFilter typ) minXY.X maxXY.X minXY.Y maxXY.Y)
              if res.aggregateErr.isSome then abort 500 res.aggregateErr ([], true)
              else if res.allErr.isSome then abort 500 res.allErr ([], true)
              else
                match FilterMap (laneCallback minXY maxXY xy2lnglat) res.rows with
                | none => Outcome.panicked []
                | some geojsons => Outcome.returned [] (geojsons, false)
      | _ => abort 500 (some "bad map path format") ([], true)

/-- The common body of `GetJunclaneByName`, `GetAllRoadlaneByName` and
`GetAllLaneByName`, after the path parameter is validated. -/
def respondLanes (w : World) (name : String) (typ : LaneType) : Outcome (List Feature) Unit :=
  match downloadLanes w name typ with
  | Outcome.panicked written => Outcome.panicked written
  | Outcome.returned written (geojsons, finished) =>
    if finished then Outcome.returned written ()
    else Outcome.returned (written ++ [(200, NewResponse geojsons)]) ()

/-- The handler `GetJunclaneByName`. -/
def GetJunclaneByName (w : World) (name : String) : Outcome (List Feature) Unit :=
  respondLanes w name LaneType.JunctionLane

/-- The handler `GetAllRoadlaneByName`. -/
def GetAllRoadlaneByName (w : World) (name : String) : Outcome (List Feature) Unit :=
  respondLanes w name LaneType.RoadLane

/-- The handler `GetAllLaneByName`. -/
def GetAllLaneByName (w : World) (name : String) : Outcome (List Feature) Unit :=
  respondLanes w name LaneType.AllLane

/-! ## geojson.go: GetRoadlaneByName

The slice `lanes` holds pointers. The objects they point to form the heap of the
model (a list, the pointer being the position), so that the assignment
`lane.ID = r.ID` through a pointer is seen by every holder of that pointer. -/

/-- The assignment `m[k] = v` on a map from lane id to lane pointer. -/
def mapSet : List (Int × Nat) → Int → Nat → List (Int × Nat)
  | [], k, v => [(k, v)]
  | (k1, v1) :: m, k, v => if k1 = k then (k1, v) :: m else (k1, v1) :: mapSet m k v

/-- The lookup `m[k]`; `none` is the nil pointer a missing key gives. -/
def mapGet : List (Int × Nat) → Int → Option Nat
  | [], _ => none
  | (k1, v1) :: m, k => if k1 = k then some v1 else mapGet m k

/-- The loop `for _, l := range lanes { id2Lanes[l.ID] = l }`, from the map `m` on,
`p` being the pointer of the first lane left. -/
def indexLanes (m : List (Int × Nat)) (p : Nat) : List mapLane → List (Int × Nat)
  | [] => m
  | l :: ls => indexLanes (mapSet m l.ID p) (p + 1) ls

/-- The map `id2Lanes` of `GetRoadlaneByName`. -/
def buildId2Lanes (lanes : List mapLane) : List (Int × Nat) :=
  indexLanes [] 0 lanes

/-- The loop `for i := len(r.LaneIDs) - 1; i >= 0; i--` with `n = i + 1` indices left
to visit: the index at which it breaks and the lane pointer found there. The index is
always in range. -/
def scanLanes (id2Lanes : List (Int × Nat)) (LaneIDs : List Int) : Nat → Option (Nat × Nat)
  | 0 => none
  | i + 1 =>
    match LaneIDs.get? i with
    | none => none
    | some id =>
      match mapGet id2Lanes id with
      | some lane => some (i, lane)
      | none => scanLanes id2Lanes LaneIDs i

/-- The lane pointer chosen for a road, if any. -/
def chooseLane (id2Lanes : List (Int × Nat)) (r : mapRoad) : Option Nat :=
  (scanLanes id2Lanes r.LaneIDs r.LaneIDs.length).map Prod.snd

/-- The assignment `lane.ID = id` through the pointer `p`. -/
def setID (heap : List mapLane) (p : Nat) (id : Int) : List mapLane :=
  match heap.get? p with
  | none => heap
  | some l => heap.set p { l with ID := id }

/-- The state of the loop over `roads`: the lane objects and the slice `roadLanes`
of pointers. -/
structure RoadLoop where
  heap : List mapLane
  roadLanes : List Nat
deriving DecidableEq, Repr

/-- One iteration of `for _, r := range roads`. -/
def roadStep (id2Lanes : List (Int × Nat)) (st : RoadLoop) (r : mapRoad) : RoadLoop :=
  match chooseLane id2Lanes r with
  | some lane => { heap := setID st.heap lane r.ID, roadLanes := st.roadLanes ++ [lane] }
  | none => st

/-- The loop `for _, r := range roads` of `GetRoadlaneByName`. -/
def selectRoadLanes (lanes : List mapLane) (roads : List mapRoad) : RoadLoop :=
  roads.foldl (roadStep (buildId2Lanes lanes)) { heap := lanes, roadLanes := [] }

/-- The callback given to `lo.FilterMap` in `GetRoadlaneByName`; following a pointer
that is not in the heap is a panic. -/
def roadLaneCallback (heap : List mapLane) (xy2lnglat : Projector) (p : Nat) :
    Option (Option Feature) :=
  match heap.get? p with
  | none => none
  | some l =>
    match newGeoJsonLane l.ID l.Typ (l.Line.map (convertToLngLat xy2lnglat)) with
    | none => none
    | some geoLane => some (some geoLane)

/-- The part of `GetRoadlaneByName` from the comment "根据road找到对应的lanes" to the
end of `lo.FilterMap`: the features made from the fetched lanes and roads. -/
def roadLaneFeatures (xy2lnglat : Projector) (lanes : List mapLane) (roads : List mapRoad) :
    Option (List Feature) :=
  let st := selectRoadLanes lanes roads
  FilterMap (roadLaneCallback st.heap xy2lnglat) st.roadLanes

/-- The handler `GetRoadlaneByName`, after the path parameter is validated. -/
def GetRoadlaneByName (w : World) (name : String) : Outcome (List Feature) Unit :=
  let metas := (w.QueryMetadata name).1
  let err := (w.QueryMetadata name).2
  if err.isSome then abort 500 err ()
  else
    match metas with
    | [] => abort 404 (some "not found") ()
    | m :: _ =>
      match m.RoadStatusVMin with
      | none => abort 400 (some "no road status information") ()
      | some vMin =>
        match Split m.Map '.' with
        | [db, coll] =>
          let col := w.mongo db coll
          if col.headerErr.isSome then abort 500 col.headerErr ()
          else if col.decodeErr.isSome then abort 500 col.decodeErr ()
          else
            match w.NewProjector col.projection WGS84CRS with
            | Except.error e => abort 500 (some e) ()
            | Except.ok xy2lnglat =>
              let res := col.lanes (LaneQuery.driving vMin)
              if res.aggregateErr.isSome then abort 500 res.aggregateErr ()
              else if res.allErr.isSome then abort 500 res.allErr ()
              else if col.roads.aggregateErr.isSome then abort 500 col.roads.aggregateErr ()
              else if col.roads.allErr.isSome then abort 500 col.roads.allErr ()
              else
                match roadLaneFeatures xy2lnglat res.rows col.roads.rows with
                | none => Outcome.panicked []
                | some geojsons => Outcome.returned [(200, NewResponse geojsons)] ()
        | _ => abort 500 (some "bad map path format") ()

/-! ## geojson.go: GetAoiByName -/

/-- The closure `convertToLngLat` of `GetAoiByName`. -/
def convertToPoint (xy2lnglat : Projector) (n : mapNode) : ℚ × ℚ :=
  let c := xy2lnglat { X := n.X, Y := n.Y }
  (c.Y, c.X)

/-- The callback given to `lo.Map` in `GetAoiByName`. -/
def aoiFeature (xy2lnglat : Projector) (a : mapAoi) : Feature :=
  { ID := a.ID
    Geometry := Geometry.Polygon [a.Positions.map (convertToPoint xy2lnglat)]
    Properties := [("id", a.ID)] }

/-- The handler `GetAoiByName`, after the path parameter is validated. -/
def GetAoiByName (w : World) (name : String) : Outcome (List Feature) Unit :=
  let metas := (w.QueryMetadata name).1
  let err := (w.QueryMetadata name).2
  if err.isSome then abort 500 err ()
  else
    match metas with
    | [] => abort 404 (some "not found") ()
    | m :: _ =>
      match Split m.Map '.' with
      | [db, coll] =>
        let col := w.mongo db coll
        if col.headerErr.isSome then abort 500 col.headerErr ()
        else if col.decodeErr.isSome then abort 500 col.decodeErr ()
        else
          match w.NewProjector col.projection WGS84CRS with
          | Except.error e => abort 500 (some e) ()
          | Except.ok xy2lnglat =>
            match w.NewProjector WGS84CRS col.projection with
            | Except.error e => abort 500 (some e) ()
            | Except.ok lnglat2xy =>
              let minXY := (localBounds m lnglat2xy).1
              let maxXY := (localBounds m lnglat2xy).2
              let res := col.aois minXY.X maxXY.X minXY.Y maxXY.Y
              if res.aggregateErr.isSome then abort 500 res.aggregateErr ()
              else if res.allErr.isSome then abort 500 res.allErr ()
              else Outcome.returned [(200, NewResponse (res.rows.map (aoiFeature xy2lnglat)))] ()
      | _ => abort 500 (some "bad map path format") ()

/-! ## Sample data for the road lanes -/

/-- Two candidate lanes, with ids 10 and 12. -/
def exampleLanes : List mapLane :=
  [{ ID := 10, Line := [{ X := 0, Y := 0 }, { X := 1, Y := 0 }], Typ := 1 },
   { ID := 12, Line := [{ X := 0, Y := 2 }, { X := 1, Y := 2 }], Typ := 1 }]

/-- A road with the lane-id list `[10, 11, 12]`. -/
def exampleRoad : mapRoad := { ID := 7, LaneIDs := [10, 11, 12] }

/-- Whether a road has at least one lane id that is the id of a candidate lane. -/
def qualifies (lanes : List mapLane) (r : mapRoad) : Bool :=
  r.LaneIDs.any (fun id => decide (id ∈ lanes.map mapLane.ID))

/-- The feature `newGeoJsonLane` builds from the lane `l` relabelled with `id`. -/
def laneFeature (xy2lnglat : Projector) (id : Int) (l : mapLane) : Feature :=
  { ID := id
    Geometry := Geometry.LineString (l.Line.map (convertToPoint xy2lnglat))
    Properties := [("id", id), ("type", l.Typ)] }

/-- One lane shared by the lane-id lists of two roads. -/
def sharedLanes : List mapLane :=
  [{ ID := 10, Line := [{ X := 0, Y := 1 }, { X := 2, Y := 3 }], Typ := 1 }]

/-- Two roads, with ids 1 and 2, that both list lane 10. -/
def sharingRoads : List mapRoad :=
  [{ ID := 1, LaneIDs := [10] }, { ID := 2, LaneIDs := [10] }]

/-! ## Runs of downloadLanes that reach the lane filter -/

/-- The answer of the store to the lane query of `downloadLanes`. -/
def laneResult (w : World) (db coll : String) (typ : LaneType) (m : Metadata)
    (lnglat2xy : Projector) : QueryResult mapLane :=
  (w.mongo db coll).lanes
    (LaneQuery.inBox (parentIDFilter typ) (localBounds m lnglat2xy).1.X
      (localBounds m lnglat2xy).2.X (localBounds m lnglat2xy).1.Y
      (localBounds m lnglat2xy).2.Y)

/-- The run gets past every error exit before the lane query: the metadata lookup
gives the row `m` first and no error, the map reference of `m` splits into `db` and
`coll`, the header is found and decoded, and both projectors are created. -/
def Ready (w : World) (name : String) (m : Metadata) (db coll : String)
    (xy2lnglat lnglat2xy : Projector) : Prop :=
  (w.QueryMetadata name).2 = none ∧
    (w.QueryMetadata name).1.head? = some m ∧
    Split m.Map '.' = [db, coll] ∧
    (w.mongo db coll).headerErr = none ∧
    (w.mongo db coll).decodeErr = none ∧
    w.NewProjector (w.mongo db coll).projection WGS84CRS = Except.ok xy2lnglat ∧
    w.NewProjector WGS84CRS (w.mongo db coll).projection = Except.ok lnglat2xy

/-- The lane query and the reading of its cursor give no error. -/
def Fetched (w : World) (db coll : String) (typ : LaneType) (m : Metadata)
    (lnglat2xy : Projector) : Prop :=
  (laneResult w db coll typ m lnglat2xy).aggregateErr = none ∧
    (laneResult w db coll typ m lnglat2xy).allErr = none

/-- Whether a lane has a point in the box: the test `lo.SomeBy(l.Line, inMicroscopic)`. -/
def included (minXY maxXY : Coord) (l : mapLane) : Bool :=
  l.Line.any (inMicroscopic minXY maxXY)

/-- A metadata row with the box from (0, 0) to (10, 10). -/
def sampleMeta : Metadata :=
  { Name := "sim", Start := 0, Steps := 10, Time := 1, TotalAgents := 0, Map := "db.map",
    MinLng := 0, MinLat := 0, MaxLng := 10, MaxLat := 10,
    RoadStatusVMin := some 5, RoadStatusInterval := some 1, Version := 2 }

/-- A projector that exchanges the two axes, in both directions. -/
def swapAxes : Projector := fun c => { X := c.Y, Y := c.X }

/-- Lane documents: a road lane crossing the box, a junction lane inside it, a road lane
outside it and a lane without centre line. -/
def sampleDocs : List LaneDoc :=
  [{ id := 1, typ := 1, parent_id := some 200000001,
     nodes := [{ X := -5, Y := 3 }, { X := 2, Y := 3 }, { X := 20, Y := 3 }], max_speed := 10 },
   { id := 2, typ := 1, parent_id := some 300000000,
     nodes := [{ X := 0, Y := 0 }, { X := 10, Y := 10 }], max_speed := 10 },
   { id := 3, typ := 2, parent_id := some 200000002,
     nodes := [{ X := 11, Y := 3 }, { X := 12, Y := 3 }], max_speed := 10 },
   { id := 4, typ := 1, parent_id := some 200000003, nodes := [], max_speed := 10 }]

/-- A collection that holds the lane documents `docs` and never fails. -/
def collectionOf (docs : List LaneDoc) : Collection :=
  { headerErr := none, decodeErr := none, projection := "+proj=tmerc"
    lanes := evalLaneQuery docs
    roads := { aggregateErr := none, allErr := none, rows := [] }
    aois := fun _ _ _ _ => { aggregateErr := none, allErr := none, rows := [] } }

/-- A world with one simulation, whose map holds the lane documents `docs`. -/
def worldOf (docs : List LaneDoc) : World :=
  { QueryMetadata := fun _ => ([sampleMeta], none)
    mongo := fun _ _ => collectionOf docs
    NewProjector := fun _ _ => Except.ok swapAxes }

/-- The ids of the features a run of `downloadLanes` returned. -/
def featureIds (o : Outcome (List Feature) (List Feature × Bool)) : List Int :=
  match o with
  | Outcome.panicked _ => []
  | Outcome.returned _ (geojsons, _) => geojsons.map Feature.ID

/-- A projector that negates both axes. -/
def negateAxes : Projector := fun c => { X := -c.X, Y := -c.Y }

/-- Two lane documents with the same id, one of a road and one of a junction. -/
def duplicateDocs : List LaneDoc :=
  [{ id := 1, typ := 1, parent_id := some 5, nodes := [{ X := 0, Y := 0 }], max_speed := 10 },
   { id := 1, typ := 1, parent_id := some 300000000, nodes := [{ X := 1, Y := 1 }],
     max_speed := 10 }]

/-! ## util/util.go -/

/-- The library function `math.Round` on a finite value: the nearest integer, halves
away from zero. It is exact: the result is a `float64` whenever the argument is. -/
def Round (x : ℚ) : ℚ :=
  if x < 0 then -((⌊-x + 1 / 2⌋ : Int) : ℚ) else ((⌊x + 1 / 2⌋ : Int) : ℚ)

/-! ## float64 arithmetic, as `util.ToFixed` uses it -/

/-- A `float64` value: a finite number, an infinity or a NaN. The two zeros are not
told apart. -/
inductive F64 where
  | finite (q : ℚ)
  | inf (negative : Bool)
  | nan
deriving DecidableEq, Repr

/-- The integer nearest to `x`, a tie going to the even one. -/
def roundHalfEven (x : ℚ) : Int :=
  if x - ⌊x⌋ < 1 / 2 then ⌊x⌋
  else if 1 / 2 < x - ⌊x⌋ then ⌊x⌋ + 1
  else if ⌊x⌋ % 2 = 0 then ⌊x⌋
  else ⌊x⌋ + 1

/-- The exponent of the last place of the `float64` values around `x`: 52 below the
binary exponent of `x`, and -1074 in the subnormal range. -/
def ulpExp (x : ℚ) : Int :=
  max (Int.log 2 |x| - 52) (-1074)

/-- The `float64` result of an operation whose exact result is `x`: the nearest value
with a 53-bit significand, a tie going to the even significand, and an infinity from
`2^1024` on. -/
def toF64 (x : ℚ) : F64 :=
  let y := (roundHalfEven (|x| / (2 : ℚ) ^ ulpExp x) : ℚ) * (2 : ℚ) ^ ulpExp x
  if (2 : ℚ) ^ (1024 : Nat) ≤ y then F64.inf (decide (x < 0))
  else F64.finite (if x < 0 then -y else y)

/-- The product `a * b` of two `float64` values. -/
def F64.mul : F64 → F64 → F64
  | F64.nan, _ => F64.nan
  | _, F64.nan => F64.nan
  | F64.inf s, F64.inf t => F64.inf (xor s t)
  | F64.inf s, F64.finite q => if q = 0 then F64.nan else F64.inf (xor s (decide (q < 0)))
  | F64.finite q, F64.inf s => if q = 0 then F64.nan else F64.inf (xor s (decide (q < 0)))
  | F64.finite a, F64.finite b => toF64 (a * b)

/-- The quotient `a / b` of two `float64` values; a zero divisor is the positive zero. -/
def F64.div : F64 → F64 → F64
  | F64.nan, _ => F64.nan
  | _, F64.nan => F64.nan
  | F64.inf _, F64.inf _ => F64.nan
  | F64.inf s, F64.finite q => F64.inf (xor s (decide (q < 0)))
  | F64.finite _, F64.inf _ => F64.finite 0
  | F64.finite a, F64.finite b =>
    if b = 0 then (if a = 0 then F64.nan else F64.inf (decide (a < 0)))
    else toF64 (a / b)

/-- The library function `math.Round` on `float64`: exact on finite values, and the
identity on the infinities and NaN. -/
def F64.Round : F64 → F64
  | F64.finite q => F64.finite (Simple.Round q)
  | F64.inf s => F64.inf s
  | F64.nan => F64.nan

/-- The call `math.Pow(10, float64(precision))`: the power of ten as a `float64`. For
`0 <= precision <= 22` the power is itself a `float64` and is what the library returns. -/
def Pow10 (precision : Int) : F64 :=
  toF64 ((10 : ℚ) ^ precision)

/-- The function `util.ToFixed`. -/
def ToFixed (num : F64) (precision : Int) : F64 :=
  let output := Pow10 precision
  F64.div (F64.Round (F64.mul num output)) output

/-- The formula of the claim on `ToFixed`, in its words: `round(num * 10^p) / 10^p` in
exact rational arithmetic, `round` being round-to-nearest with halves away from zero. -/
def ToFixedExact (num : ℚ) (precision : Int) : ℚ :=
  Round (num * (10 : ℚ) ^ precision) / (10 : ℚ) ^ precision

/-! ## metadata.go: QueryMetadata -/

/-- What the relational store gives for the query of `QueryMetadata`: the error of
`Query`, for each row that `rows.Next` yields the result of `metaTool.Scan`, and
`rows.Err()`. -/
structure MetaRows where
  queryErr : GoError
  scans : List (Except String Metadata)
  rowsErr : GoError

/-- The loop `for rows.Next()` of `QueryMetadata`, from the slice `all` on. -/
def scanAll : List (Except String Metadata) → List Metadata → List Metadata × GoError
  | [], all => (all, none)
  | Except.error e :: _, _ => ([], some e)
  | Except.ok one :: rest, all => scanAll rest (all ++ [one])

/-- The function `QueryMetadata`; `pg` answers the query for the optional name, and the
nil slice is the empty list. -/
def QueryMetadata (pg : Option String → MetaRows) (name : Option String) :
    List Metadata × GoError :=
  let rows := pg name
  if rows.queryErr.isSome then ([], rows.queryErr)
  else
    match scanAll rows.scans [] with
    | (_, some e) => ([], some e)
    | (all, none) =>
      if rows.rowsErr.isSome then ([], rows.rowsErr)
      else if name.isSome && decide (all.length > 1) then ([], some "duplicate records")
      else (all, none)

/-! ## The stepped tables -/

/-- The arguments of one call of `lens.QueryPgTableWithStep`, after the tool. -/
structure StepQuery where
  table : String
  Begin : Int
  End : Int
  interval : Int
  offset : Int
  subInterval : Int
  filter : String
  args : List ℚ
deriving DecidableEq, Repr

/-- The validated query parameters `lens.Step`. -/
structure Step where
  Begin : Int
  End : Int
  Interval : Int
deriving DecidableEq, Repr

/-- The validated query parameters `lens.StepCoordinate`. -/
structure StepCoordinate where
  Begin : Int
  End : Int
  Interval : Int
  Lat1 : ℚ
  Lat2 : ℚ
  Lng1 : ℚ
  Lng2 : ℚ
deriving DecidableEq, Repr

/-! ## car.go and person.go -/

/-- The row type `CarV2` of `car.go`. -/
structure CarV2 where
  Step : Int
  Id : Int
  LaneId : Int
  Direction : F64
  Lng : F64
  Lat : F64
  Model : String
  Z : F64
  Pitch : F64
  V : F64
  NumPassengers : Int
deriving DecidableEq, Repr

/-- The row type `Person` of `person.go`. -/
structure Person where
  Step : Int
  Id : Int
  ParentId : Int
  Direction : F64
  Lng : F64
  Lat : F64
  Z : F64
  V : F64
  Model : String
deriving DecidableEq, Repr

/-- The helper `lens.QueryPgTableWithStep`, for the three row types the handlers
fetch: the rows and the error of each call. -/
structure Tables where
  cars : StepQuery → List CarV2 × GoError
  people : StepQuery → List Person × GoError
  roadStatus : StepQuery → List RoadStatus × GoError

/-- The statement `c.JSON(status, util.NewErrorResponse(err))` after the responses
`written`; `none` when building the response panics. -/
def writeError {δ : Type} (written : List (Nat × Response δ)) (status : Nat) (err : GoError) :
    Option (List (Nat × Response δ)) :=
  (NewErrorResponse err).map (fun r => written ++ [(status, r)])

/-- The body of the loop `for _, one := range all` of `GetCarsByName`. -/
def roundCar (one : CarV2) : CarV2 :=
  { one with
    Direction := ToFixed one.Direction 2
    Lng := ToFixed one.Lng 8
    Lat := ToFixed one.Lat 8 }

/-- The body of the loop `for _, one := range all` of `GetPeopleByName`. -/
def roundPerson (one : Person) : Person :=
  { one with
    Direction := ToFixed one.Direction 2
    Lng := ToFixed one.Lng 8
    Lat := ToFixed one.Lat 8 }

/-- The query `GetCarsByName` sends to the table of vehicles. -/
def carQuery (name : String) (s : StepCoordinate) : StepQuery :=
  { table := name ++ "_s_cars", Begin := s.Begin, End := s.End, interval := 1, offset := 0,
    subInterval := s.Interval, filter := "LAT>=$1 AND LAT<$2 AND LNG>=$3 AND LNG<$4",
    args := [s.Lat1, s.Lat2, s.Lng1, s.Lng2] }

/-- The query `GetPeopleByName` sends to the table of pedestrians. -/
def peopleQuery (name : String) (s : StepCoordinate) : StepQuery :=
  { table := name ++ "_s_people", Begin := s.Begin, End := s.End, interval := 1, offset := 0,
    subInterval := s.Interval, filter := "LAT>=$1 AND LAT<$2 AND LNG>=$3 AND LNG<$4",
    args := [s.Lat1, s.Lat2, s.Lng1, s.Lng2] }

/-- The handler `GetCarsByName`, after the parameters are validated. The two branches
that write the 500 and the 404 response have no `return`: the run goes on to
`metas[0]`, which panics on an empty slice. -/
def GetCarsByName (w : World) (t : Tables) (name : String) (s : StepCoordinate) :
    Outcome (List CarV2) Unit :=
  let metas := (w.QueryMetadata name).1
  let err := (w.QueryMetadata name).2
  let afterCheck : Option (List (Nat × Response (List CarV2))) :=
    if err.isSome then writeError [] 500 err
    else if metas.length = 0 then writeError [] 404 (some "not found")
    else some []
  match afterCheck with
  | none => Outcome.panicked []
  | some written =>
    match metas with
    | [] => Outcome.panicked written
    | m :: _ =>
      if m.Version = 2 then
        let all := (t.cars (carQuery name s)).1
        let err2 := (t.cars (carQuery name s)).2
        if err2.isSome then
          match writeError written 500 err2 with
          | none => Outcome.panicked written
          | some written2 => Outcome.returned written2 ()
        else Outcome.returned (written ++ [(200, NewResponse (all.map roundCar))]) ()
      else
        match writeError written 500 (some "unsupported version") with
        | none => Outcome.panicked written
        | some written2 => Outcome.returned written2 ()

/-- The handler `GetPeopleByName`, after the parameters are validated. -/
def GetPeopleByName (t : Tables) (name : String) (s : StepCoordinate) :
    Outcome (List Person) Unit :=
  let all := (t.people (peopleQuery name s)).1
  let err := (t.people (peopleQuery name s)).2
  if err.isSome then abort 500 err ()
  else Outcome.returned [(200, NewResponse (all.map roundPerson))] ()

/-! ## road_status.go: the handlers and the interval cache -/

/-- The cache `intervalCache`, as the map from simulation name to interval that `Get`
sees at the time of the request. -/
abbrev IntervalCache := String → Option Int

/-- The call `intervalCache.Set(k, v, cache.DefaultExpiration)`. -/
def cacheSet (c : IntervalCache) (k : String) (v : Int) : IntervalCache :=
  fun k2 => if k2 = k then some v else c k2

/-- A run of a road-status handler: how it ends, the cache after it, the names
`QueryMetadata` was called with and the queries sent to the stepped table, in order. -/
structure StatusRun (δ : Type) where
  outcome : Outcome δ Unit
  cache : IntervalCache
  lookups : List String
  fetches : List StepQuery

/-- The statements from `var interval int` to the end of the `else` branch, which
`GetRoadStatusByName` (lines 53-72) and `GetRoadStatusStatByName` (lines 114-133) have
in common: the interval, or the run that ends in an error response. -/
def resolveInterval {δ : Type} (w : World) (cache : IntervalCache) (name : String) :
    Except (StatusRun δ) (Int × IntervalCache × List String) :=
  match cache name with
  | some i => Except.ok (i, cache, [])
  | none =>
    let metas := (w.QueryMetadata name).1
    let err := (w.QueryMetadata name).2
    if err.isSome then
      Except.error { outcome := abort 500 err (), cache := cache, lookups := [name],
                     fetches := [] }
    else
      match metas with
      | [] =>
        Except.error { outcome := abort 404 (some "no found") (), cache := cache,
                       lookups := [name], fetches := [] }
      | m :: _ =>
        match m.RoadStatusInterval with
        | none =>
          Except.error { outcome := abort 400 (some "no road status information") (),
                         cache := cache, lookups := [name], fetches := [] }
        | some interval => Except.ok (interval, cacheSet cache name interval, [name])

/-- The query both road-status handlers send to the table of road status. -/
def roadStatusQuery (name : String) (s : Step) (interval : Int) : StepQuery :=
  { table := name ++ "_s_road", Begin := s.Begin, End := s.End, interval := interval,
    offset := 0, subInterval := s.Interval, filter := "", args := [] }

/-- The handler `GetRoadStatusByName`, after the parameters are validated. -/
def GetRoadStatusByName (w : World) (t : Tables) (cache : IntervalCache) (name : String)
    (s : Step) : StatusRun (List RoadStatus) :=
  match resolveInterval w cache name with
  | Except.error run => run
  | Except.ok (interval, cache2, lookups) =>
    let all := (t.roadStatus (roadStatusQuery name s interval)).1
    let err := (t.roadStatus (roadStatusQuery name s interval)).2
    { outcome :=
        if err.isSome then abort 500 err ()
        else Outcome.returned [(200, NewResponse all)] ()
      cache := cache2
      lookups := lookups
      fetches := [roadStatusQuery name s interval] }

/-- The handler `GetRoadStatusStatByName`, after the parameters are validated; the
rows are aggregated as in `roadStatusStat`. -/
def GetRoadStatusStatByName (w : World) (t : Tables) (cache : IntervalCache) (name : String)
    (s : Step) : StatusRun (List RoadStatusStat) :=
  match resolveInterval w cache name with
  | Except.error run => run
  | Except.ok (interval, cache2, lookups) =>
    let all := (t.roadStatus (roadStatusQuery name s interval)).1
    let err := (t.roadStatus (roadStatusQuery name s interval)).2
    { outcome :=
        if err.isSome then abort 500 err ()
        else Outcome.returned [(200, NewResponse (roadStatusStat all))] ()
      cache := cache2
      lookups := lookups
      fetches := [roadStatusQuery name s interval] }

/-! ## Worlds for the error exits -/

/-- A world whose metadata table is the relational store `pg`, read through
`QueryMetadata`, over the collection `col`. -/
def worldFromPg (pg : Option String → MetaRows) (col : Collection) : World :=
  { QueryMetadata := fun name => QueryMetadata pg (some name)
    mongo := fun _ _ => col
    NewProjector := fun _ _ => Except.ok swapAxes }

/-- A metadata table without rows. -/
def noRowsPg : Option String → MetaRows :=
  fun _ => { queryErr := none, scans := [], rowsErr := none }

/-- A metadata table whose query fails. -/
def brokenPg : Option String → MetaRows :=
  fun _ => { queryErr := some "connection refused", scans := [], rowsErr := none }

/-- A metadata table that holds the one row `m` for every name. -/
def oneRowPg (m : Metadata) : Option String → MetaRows :=
  fun _ => { queryErr := none, scans := [Except.ok m], rowsErr := none }

/-- Stepped tables without rows. -/
def noTables : Tables :=
  { cars := fun _ => ([], none), people := fun _ => ([], none),
    roadStatus := fun _ => ([], none) }

/-- Query parameters for the sample requests. -/
def sampleParams : StepCoordinate :=
  { Begin := 0, End := 10, Interval := 1, Lat1 := 0, Lat2 := 10, Lng1 := 0, Lng2 := 10 }

/-- A collection whose header record is missing. -/
def headerlessCollection : Collection :=
  { headerErr := some "mongo: no documents in result", decodeErr := none, projection := ""
    lanes := evalLaneQuery sampleDocs
    roads := { aggregateErr := none, allErr := none, rows := [] }
    aois := fun _ _ _ _ => { aggregateErr := none, allErr := none, rows := [] } }

/-- The world of `w` with the store and the projection library replaced by ones that
never fail, the store holding no lane, road or area. -/
def healthyWorld (w : World) : World :=
  { QueryMetadata := w.QueryMetadata
    mongo := fun _ _ => collectionOf []
    NewProjector := fun _ _ => Except.ok swapAxes }

/-- The response of the error exit for a malformed map reference. -/
def badMapResponse : Nat × Response (List Feature) :=
  (500, { Error := "bad map path format", Data := none })

/-- A metadata row whose map reference has no dot and whose minimum-speed threshold
is absent. -/
def noDotMeta : Metadata := { sampleMeta with Map := "nodots", RoadStatusVMin := none }

/-- A metadata row whose map reference has two dots. -/
def twoDotMeta : Metadata := { sampleMeta with Map := "a.b.c" }

/-- A metadata row with a well-formed map reference and no minimum-speed threshold. -/
def noThresholdMeta : Metadata := { sampleMeta with RoadStatusVMin := none }

/-! ## The protocol of the interval cache -/

/-- What the claim on the interval cache says of a handler `run`, as a function of the
cache it finds, for the simulation `name`: a hit makes no metadata lookup, fetches with
the cached interval and leaves the cache as it is; a miss makes one lookup, for `name`;
a row with the interval `v` makes the cache `name -> v` added and `v` the fetch
interval; a failed lookup, no row or a row without interval ends in one error response
with the cache unchanged and nothing fetched; entries of other names are neither
changed nor looked at. -/
def CacheProtocol {δ : Type} (w : World) (name : String) (s : Step)
    (run : IntervalCache → StatusRun δ) : Prop :=
  ∀ cache : IntervalCache,
    (∀ i, cache name = some i →
      (run cache).lookups = [] ∧ (run cache).fetches = [roadStatusQuery name s i] ∧
        (run cache).cache = cache) ∧
    (cache name = none → (run cache).lookups = [name]) ∧
    (∀ m v, cache name = none → (w.QueryMetadata name).2 = none →
      (w.QueryMetadata name).1.head? = some m → m.RoadStatusInterval = some v →
      (run cache).cache = cacheSet cache name v ∧
        (run cache).fetches = [roadStatusQuery name s v]) ∧
    (cache name = none →
      ((w.QueryMetadata name).2 ≠ none ∨ (w.QueryMetadata name).1 = [] ∨
        ∃ m, (w.QueryMetadata name).1.head? = some m ∧ m.RoadStatusInterval = none) →
      (run cache).cache = cache ∧ (run cache).fetches = [] ∧
        ∃ status msg,
          (run cache).outcome = Outcome.returned [(status, { Error := msg, Data := none })] ()) ∧
    (∀ k, k ≠ name → (run cache).cache k = cache k) ∧
    ∀ cache2 : IntervalCache, cache2 name = cache name →
      (run cache2).outcome = (run cache).outcome ∧
        (run cache2).lookups = (run cache).lookups ∧
        (run cache2).fetches = (run cache).fetches ∧
        (run cache2).cache name = (run cache).cache name

/-- A cache that holds the interval 5 for the simulation `sim` and nothing else. -/
def sampleCache : IntervalCache := fun k => if k = "sim" then some 5 else none

/-- A cache without entries. -/
def emptyCache : IntervalCache := fun _ => none

/-! ## Congestion aggregation: grouping -/

theorem keys_appendAt (m : List (Int × List RoadStatus)) (v : RoadStatus) :
    (appendAt m v).map Prod.fst =
      if v.Step ∈ m.map Prod.fst then m.map Prod.fst else m.map Prod.fst ++ [v.Step] := by
  induction m with
  | nil => simp [appendAt]
  | cons e m ih =>
    obtain ⟨k, g⟩ := e
    by_cases hk : k = v.Step
    · simp [appendAt, hk]
    · have hk2 : ¬ v.Step = k := fun h => hk h.symm
      by_cases hm : v.Step ∈ m.map Prod.fst
      · simp only [appendAt, hk, if_false, List.map_cons, ih, hm, if_true, List.mem_cons,
          or_true]
      · simp only [appendAt, hk, if_false, List.map_cons, ih, hm, List.mem_cons, hk2,
          or_self, List.cons_append]

theorem mem_appendAt (m : List (Int × List RoadStatus)) (v : RoadStatus)
    (hnd : (m.map Prod.fst).Nodup) (e : Int × List RoadStatus) (he : e ∈ appendAt m v) :
    (e.1 ≠ v.Step ∧ e ∈ m) ∨
      (e.1 = v.Step ∧ ((∃ g, (v.Step, g) ∈ m ∧ e.2 = g ++ [v]) ∨
        (v.Step ∉ m.map Prod.fst ∧ e.2 = [v]))) := by
  induction m with
  | nil =>
    simp only [appendAt, List.mem_singleton] at he
    subst he
    simp
  | cons e0 m ih =>
    obtain ⟨k, g⟩ := e0
    rw [List.map_cons, List.nodup_cons] at hnd
    by_cases hk : k = v.Step
    · simp only [appendAt, hk, if_true, List.mem_cons] at he
      rcases he with he | he
      · subst he
        right
        exact ⟨rfl, Or.inl ⟨g, by simp [hk], rfl⟩⟩
      · left
        refine ⟨?_, List.mem_cons_of_mem _ he⟩
        intro h1
        have hke : k = e.1 := hk.trans h1.symm
        have hmem : e.1 ∈ m.map Prod.fst := List.mem_map_of_mem Prod.fst he
        rw [← hke] at hmem
        exact hnd.1 hmem
    · simp only [appendAt, hk, if_false, List.mem_cons] at he
      rcases he with he | he
      · subst he
        left
        exact ⟨hk, List.mem_cons_self _ _⟩
      · rcases ih hnd.2 he with ⟨h1, h2⟩ | ⟨h1, h2⟩
        · left
          exact ⟨h1, List.mem_cons_of_mem _ h2⟩
        · right
          refine ⟨h1, ?_⟩
          rcases h2 with ⟨g1, hg1, hg2⟩ | ⟨hn, hg⟩
          · exact Or.inl ⟨g1, List.mem_cons_of_mem _ hg1, hg2⟩
          · right
            refine ⟨?_, hg⟩
            simp only [List.map_cons, List.mem_cons, not_or]
            exact ⟨fun h => hk h.symm, hn⟩

theorem step2status_snoc (all : List RoadStatus) (v : RoadStatus) :
    step2status (all ++ [v]) = appendAt (step2status all) v := by
  simp [step2status, List.foldl_append]

theorem samplesAt_snoc (all : List RoadStatus) (v : RoadStatus) (s : Int) :
    samplesAt (all ++ [v]) s = samplesAt all s ++ (if v.Step = s then [v] else []) := by
  by_cases h : v.Step = s <;> simp [samplesAt, List.filter_append, List.filter_cons, h]

theorem samplesAt_eq_nil (all : List RoadStatus) (s : Int) (h : s ∉ all.map RoadStatus.Step) :
    samplesAt all s = [] := by
  simp only [samplesAt, List.filter_eq_nil_iff, decide_eq_true_eq]
  intro v hv hs
  exact h (hs ▸ List.mem_map_of_mem RoadStatus.Step hv)

/-- What the grouping loop builds: distinct keys, exactly the steps of the input, each
with the samples of that step in input order. -/
theorem step2status_spec (all : List RoadStatus) :
    ((step2status all).map Prod.fst).Nodup ∧
      (∀ s, s ∈ (step2status all).map Prod.fst ↔ s ∈ all.map RoadStatus.Step) ∧
      ∀ e ∈ step2status all, e.2 = samplesAt all e.1 := by
  induction all using List.reverseRecOn with
  | nil => simp [step2status]
  | append_singleton all v ih =>
    obtain ⟨hnd, hkeys, hval⟩ := ih
    rw [step2status_snoc]
    have hk := keys_appendAt (step2status all) v
    refine ⟨?_, ?_, ?_⟩
    · rw [hk]
      split
      · exact hnd
      · rename_i hn
        rw [List.nodup_append]
        refine ⟨hnd, List.nodup_singleton _, ?_⟩
        intro a ha hb
        rw [List.mem_singleton] at hb
        exact hn (hb ▸ ha)
    · intro s
      rw [hk]
      split
      · rename_i hin
        rw [hkeys, List.map_append, List.mem_append]
        constructor
        · exact Or.inl
        · rintro (h | h)
          · exact h
          · simp only [List.map_cons, List.map_nil, List.mem_singleton] at h
            rw [h, ← hkeys]
            exact hin
      · simp only [List.mem_append, List.mem_singleton, List.map_append, List.map_cons,
          List.map_nil, hkeys]
    · intro e he
      rw [samplesAt_snoc]
      rcases mem_appendAt _ v hnd e he with ⟨h1, h2⟩ | ⟨h1, h2⟩
      · rw [if_neg (fun h => h1 h.symm), List.append_nil]
        exact hval e h2
      · rw [if_pos h1.symm]
        rcases h2 with ⟨g, hg1, hg2⟩ | ⟨hn, hg⟩
        · rw [hg2, h1]
          exact congrArg (· ++ [v]) (hval _ hg1)
        · rw [hg, samplesAt_eq_nil all e.1]
          · rfl
          · rw [h1, ← hkeys]
            exact hn

/-! ## Congestion aggregation: sorting -/

theorem insertBy_perm {α : Type} (less : α → α → Bool) (x : α) (l : List α) :
    (insertBy less x l).Perm (x :: l) := by
  induction l with
  | nil => exact List.Perm.refl _
  | cons y ys ih =>
    unfold insertBy
    split
    · exact List.Perm.refl _
    · exact (List.Perm.cons y ih).trans (List.Perm.swap x y ys)

theorem sortSlice_perm {α : Type} (less : α → α → Bool) (l : List α) :
    (sortSlice less l).Perm l := by
  induction l with
  | nil => exact List.Perm.refl _
  | cons x xs ih => exact (insertBy_perm less x _).trans (List.Perm.cons x ih)

theorem insertBy_lessStep_sorted (x : RoadStatusStat) (l : List RoadStatusStat)
    (h : l.Pairwise (fun a b => a.Step ≤ b.Step)) :
    (insertBy lessStep x l).Pairwise (fun a b => a.Step ≤ b.Step) := by
  induction l with
  | nil => simp [insertBy]
  | cons y ys ih =>
    rw [List.pairwise_cons] at h
    unfold insertBy
    split
    · rename_i hlt
      simp only [lessStep, decide_eq_true_eq] at hlt
      refine List.Pairwise.cons ?_ (List.Pairwise.cons h.1 h.2)
      intro b hb
      rcases List.mem_cons.1 hb with hb | hb
      · rw [hb]; exact le_of_lt hlt
      · exact le_trans (le_of_lt hlt) (h.1 b hb)
    · rename_i hlt
      simp only [lessStep, decide_eq_true_eq, not_lt] at hlt
      refine List.Pairwise.cons ?_ (ih h.2)
      intro b hb
      rcases List.mem_cons.1 ((insertBy_perm lessStep x ys).subset hb) with hb | hb
      · rw [hb]; exact hlt
      · exact h.1 b hb

theorem sortSlice_lessStep_sorted (l : List RoadStatusStat) :
    (sortSlice lessStep l).Pairwise (fun a b => a.Step ≤ b.Step) := by
  induction l with
  | nil => exact List.Pairwise.nil
  | cons x xs ih => exact insertBy_lessStep_sorted x _ ih

/-- The rows appended to `stat` for the visiting order `visit`, and their steps. -/
theorem steps_of_rows (visit : List (Int × List RoadStatus)) :
    (visit.map (fun e => mkStat e.1 e.2)).map RoadStatusStat.Step = visit.map Prod.fst := by
  simp [List.map_map, Function.comp_def, mkStat]

theorem statOfVisit_steps_perm (visit : List (Int × List RoadStatus)) :
    ((statOfVisit visit).map RoadStatusStat.Step).Perm (visit.map Prod.fst) := by
  rw [← steps_of_rows]
  exact (sortSlice_perm _ _).map _

theorem statOfVisit_strict (visit : List (Int × List RoadStatus))
    (hnd : (visit.map Prod.fst).Nodup) :
    ((statOfVisit visit).map RoadStatusStat.Step).Sorted (· < ·) := by
  have h1 : ((statOfVisit visit).map RoadStatusStat.Step).Nodup :=
    (statOfVisit_steps_perm visit).nodup_iff.2 hnd
  have h2 : ((statOfVisit visit).map RoadStatusStat.Step).Pairwise (· ≤ ·) := by
    rw [List.pairwise_map]
    exact sortSlice_lessStep_sorted _
  exact (List.Pairwise.and h2 h1).imp (fun h => lt_of_le_of_ne h.1 h.2)

/-- Claim C1: whatever the order in which the map of groups is visited, the steps of
the rows that `GetRoadStatusStatByName` produces are strictly ascending (so each
occurs once) and are exactly the steps that occur in the input; an empty input
gives no row. -/
theorem stat_steps_sorted_distinct (all : List RoadStatus)
    (visit : List (Int × List RoadStatus)) (hvisit : visit.Perm (step2status all)) :
    ((statOfVisit visit).map RoadStatusStat.Step).Sorted (· < ·) ∧
      (∀ s, s ∈ (statOfVisit visit).map RoadStatusStat.Step ↔ s ∈ all.map RoadStatus.Step) ∧
      (all = [] → statOfVisit visit = []) := by
  obtain ⟨hnd, hkeys, _⟩ := step2status_spec all
  have hp : (visit.map Prod.fst).Perm ((step2status all).map Prod.fst) := hvisit.map _
  refine ⟨statOfVisit_strict visit (hp.nodup_iff.2 hnd), ?_, ?_⟩
  · intro s
    rw [(statOfVisit_steps_perm visit).mem_iff, hp.mem_iff, hkeys]
  · intro h
    subst h
    have : visit = [] := List.Perm.eq_nil hvisit
    subst this
    rfl

theorem stat_steps_sorted_distinct_witness :
    (step2status scatteredSamples).reverse.Perm (step2status scatteredSamples) ∧
      (((statOfVisit (step2status scatteredSamples).reverse).map
          RoadStatusStat.Step).Sorted (· < ·) ∧
        (∀ s, s ∈ (statOfVisit (step2status scatteredSamples).reverse).map RoadStatusStat.Step ↔
          s ∈ scatteredSamples.map RoadStatus.Step) ∧
        (scatteredSamples = [] → statOfVisit (step2status scatteredSamples).reverse = [])) :=
  ⟨List.reverse_perm _,
    stat_steps_sorted_distinct scatteredSamples _ (List.reverse_perm _)⟩

/-! ## Congestion aggregation: the rows -/

theorem foldl_accumulate_sum (l : List RoadStatus) (acc : ℚ × List Int) :
    (l.foldl accumulate acc).1 = acc.1 + (l.map (fun v => (v.Level : ℚ))).sum := by
  induction l generalizing acc with
  | nil => simp
  | cons v vs ih =>
    rw [List.foldl_cons, ih]
    simp [accumulate, add_assoc]

theorem levelCount_cons (v : RoadStatus) (vs : List RoadStatus) (k : Int) :
    levelCount (v :: vs) k = levelCount vs k + (if v.Level = k then 1 else 0) := by
  unfold levelCount
  rw [List.countP_cons]
  by_cases h : v.Level = k <;> simp [h]

theorem foldl_accumulate_counts (l : List RoadStatus) (s : ℚ) (c2 c3 c4 c5 : Int) :
    (l.foldl accumulate (s, [c2, c3, c4, c5])).2 =
      [c2 + levelCount l 2, c3 + levelCount l 3, c4 + levelCount l 4, c5 + levelCount l 5] := by
  induction l generalizing s c2 c3 c4 c5 with
  | nil => simp [levelCount]
  | cons v vs ih =>
    rw [List.foldl_cons]
    simp only [levelCount_cons]
    by_cases hr : 2 ≤ v.Level ∧ v.Level ≤ 5
    · have h4 : v.Level = 2 ∨ v.Level = 3 ∨ v.Level = 4 ∨ v.Level = 5 := by omega
      rcases h4 with h | h | h | h <;>
        · simp only [accumulate, h]
          norm_num [incrAt]
          rw [ih]
          simp only [add_assoc, add_comm (1 : Int)]
    · have h2 : ¬ v.Level = 2 := by omega
      have h3 : ¬ v.Level = 3 := by omega
      have h4 : ¬ v.Level = 4 := by omega
      have h5 : ¬ v.Level = 5 := by omega
      simp only [accumulate, hr, if_false, h2, h3, h4, h5, add_zero]
      exact ih _ _ _ _ _

theorem mkStat_mean (step : Int) (g : List RoadStatus) :
    (mkStat step g).MeanCongestionLevel =
      (g.map (fun v => (v.Level : ℚ))).sum / (g.length : ℚ) := by
  simp only [mkStat, foldl_accumulate_sum, zero_add]
  split
  · rfl
  · rename_i h
    have : g = [] := List.length_eq_zero.1 (by omega)
    subst this
    simp

theorem mkStat_counts (step : Int) (g : List RoadStatus) :
    (mkStat step g).LevelCounts =
      [levelCount g 2, levelCount g 3, levelCount g 4, levelCount g 5] := by
  have h := foldl_accumulate_counts g 0 0 0 0 0
  simp only [zero_add] at h
  simpa [mkStat] using h

/-- Every row of the output is the row of one group of the input, and every step that
occurs in the input has a row. -/
theorem statOfVisit_rows (all : List RoadStatus) (visit : List (Int × List RoadStatus))
    (hvisit : visit.Perm (step2status all)) :
    (∀ row ∈ statOfVisit visit, row = mkStat row.Step (samplesAt all row.Step)) ∧
      ∀ s ∈ all.map RoadStatus.Step, ∃ row ∈ statOfVisit visit, row.Step = s := by
  obtain ⟨_, hkeys, hval⟩ := step2status_spec all
  constructor
  · intro row hrow
    have h1 : row ∈ visit.map (fun e => mkStat e.1 e.2) := (sortSlice_perm _ _).subset hrow
    obtain ⟨e, he, rfl⟩ := List.mem_map.1 h1
    have h2 := hval e (hvisit.subset he)
    show mkStat e.1 e.2 = mkStat e.1 (samplesAt all e.1)
    rw [← h2]
  · intro s hs
    have h1 : s ∈ (statOfVisit visit).map RoadStatusStat.Step := by
      rw [(statOfVisit_steps_perm visit).mem_iff, (hvisit.map Prod.fst).mem_iff, hkeys]
      exact hs
    obtain ⟨row, hrow, hstep⟩ := List.mem_map.1 h1
    exact ⟨row, hrow, hstep⟩

/-- The order in which the map of groups is visited does not show in the output. -/
theorem statOfVisit_eq (all : List RoadStatus) (visit : List (Int × List RoadStatus))
    (hvisit : visit.Perm (step2status all)) : statOfVisit visit = roadStatusStat all := by
  obtain ⟨hnd, _, _⟩ := step2status_spec all
  have hnd2 : (visit.map Prod.fst).Nodup := (hvisit.map Prod.fst).nodup_iff.2 hnd
  have s1 : (statOfVisit visit).Pairwise (fun a b => a.Step < b.Step) :=
    List.pairwise_map.1 (statOfVisit_strict visit hnd2)
  have s2 : (roadStatusStat all).Pairwise (fun a b => a.Step < b.Step) :=
    List.pairwise_map.1 (statOfVisit_strict (step2status all) hnd)
  have hp : (statOfVisit visit).Perm (roadStatusStat all) :=
    ((sortSlice_perm _ _).trans (hvisit.map _)).trans (sortSlice_perm _ _).symm
  haveI : IsAntisymm RoadStatusStat (fun a b => a.Step < b.Step) :=
    ⟨fun _ _ h1 h2 => absurd h1 (not_lt_of_gt h2)⟩
  exact List.eq_of_perm_of_sorted hp s1 s2

theorem roadStatusStat_example :
    roadStatusStat exampleSamples =
      [{ Step := 1, MeanCongestionLevel := 8 / 3, LevelCounts := [2, 0, 1, 0] },
       { Step := 2, MeanCongestionLevel := 6, LevelCounts := [0, 0, 0, 0] }] := by
  simp [roadStatusStat, statOfVisit, step2status, exampleSamples, appendAt, mkStat,
    accumulate, incrAt, sortSlice, insertBy, lessStep]
  norm_num

/-- Claim C2: for every step `s` that occurs in the input, the output has a row for
`s`, and the mean congestion level of a row for `s` is the sum of the levels of all
samples with step `s` (levels 0, 1 and 6 included) divided by their number, in exact
rational arithmetic. For the samples (1,2), (1,2), (1,4), (2,6) the means are 8/3 for
step 1 and 6 for step 2, in whatever order the groups are visited. -/
theorem stat_mean_is_average (all : List RoadStatus)
    (visit : List (Int × List RoadStatus)) (hvisit : visit.Perm (step2status all))
    (s : Int) (hs : s ∈ all.map RoadStatus.Step) :
    (∃ row ∈ statOfVisit visit, row.Step = s) ∧
      (∀ row ∈ statOfVisit visit, row.Step = s →
        row.MeanCongestionLevel =
          ((samplesAt all s).map (fun v => (v.Level : ℚ))).sum /
            ((samplesAt all s).length : ℚ)) ∧
      ∀ order : List (Int × List RoadStatus), order.Perm (step2status exampleSamples) →
        (statOfVisit order).map (fun r => (r.Step, r.MeanCongestionLevel)) =
          [(1, 8 / 3), (2, 6)] := by
  obtain ⟨hrows, hex⟩ := statOfVisit_rows all visit hvisit
  refine ⟨hex s hs, ?_, ?_⟩
  · intro row hrow hstep
    rw [hrows row hrow, mkStat_mean, hstep]
  · intro order horder
    rw [statOfVisit_eq _ _ horder, roadStatusStat_example]
    rfl

theorem stat_mean_is_average_witness :
    (step2status exampleSamples).Perm (step2status exampleSamples) ∧
      (1 : Int) ∈ exampleSamples.map RoadStatus.Step ∧
      ((∃ row ∈ statOfVisit (step2status exampleSamples), row.Step = 1) ∧
        (∀ row ∈ statOfVisit (step2status exampleSamples), row.Step = 1 →
          row.MeanCongestionLevel =
            ((samplesAt exampleSamples 1).map (fun v => (v.Level : ℚ))).sum /
              ((samplesAt exampleSamples 1).length : ℚ)) ∧
        ∀ order : List (Int × List RoadStatus), order.Perm (step2status exampleSamples) →
          (statOfVisit order).map (fun r => (r.Step, r.MeanCongestionLevel)) =
            [(1, 8 / 3), (2, 6)]) :=
  ⟨List.Perm.refl _, by decide,
    stat_mean_is_average exampleSamples _ (List.Perm.refl _) 1 (by decide)⟩

/-- Claim C3: for every step `s` that occurs in the input, the output has a row for
`s`, and the level counts of a row for `s` are exactly four integers: the numbers of
samples with step `s` and level exactly 2, 3, 4 and 5; samples of any other level are
counted nowhere. For the samples (1,2), (1,2), (1,4), (2,6) the counts are [2,0,1,0]
for step 1 and [0,0,0,0] for step 2, in whatever order the groups are visited. -/
theorem stat_level_counts_are_histogram (all : List RoadStatus)
    (visit : List (Int × List RoadStatus)) (hvisit : visit.Perm (step2status all))
    (s : Int) (hs : s ∈ all.map RoadStatus.Step) :
    (∃ row ∈ statOfVisit visit, row.Step = s) ∧
      (∀ row ∈ statOfVisit visit, row.Step = s →
        row.LevelCounts.length = 4 ∧
        row.LevelCounts =
          [levelCount (samplesAt all s) 2, levelCount (samplesAt all s) 3,
           levelCount (samplesAt all s) 4, levelCount (samplesAt all s) 5]) ∧
      ∀ order : List (Int × List RoadStatus), order.Perm (step2status exampleSamples) →
        (statOfVisit order).map (fun r => (r.Step, r.LevelCounts)) =
          [(1, [2, 0, 1, 0]), (2, [0, 0, 0, 0])] := by
  obtain ⟨hrows, hex⟩ := statOfVisit_rows all visit hvisit
  refine ⟨hex s hs, ?_, ?_⟩
  · intro row hrow hstep
    rw [hrows row hrow, mkStat_counts, hstep]
    exact ⟨rfl, rfl⟩
  · intro order horder
    rw [statOfVisit_eq _ _ horder, roadStatusStat_example]
    rfl

theorem stat_level_counts_are_histogram_witness :
    (step2status scatteredSamples).reverse.Perm (step2status scatteredSamples) ∧
      (5 : Int) ∈ scatteredSamples.map RoadStatus.Step ∧
      ((∃ row ∈ statOfVisit (step2status scatteredSamples).reverse, row.Step = 5) ∧
        (∀ row ∈ statOfVisit (step2status scatteredSamples).reverse, row.Step = 5 →
          row.LevelCounts.length = 4 ∧
          row.LevelCounts =
            [levelCount (samplesAt scatteredSamples 5) 2,
             levelCount (samplesAt scatteredSamples 5) 3,
             levelCount (samplesAt scatteredSamples 5) 4,
             levelCount (samplesAt scatteredSamples 5) 5]) ∧
        ∀ order : List (Int × List RoadStatus), order.Perm (step2status exampleSamples) →
          (statOfVisit order).map (fun r => (r.Step, r.LevelCounts)) =
            [(1, [2, 0, 1, 0]), (2, [0, 0, 0, 0])]) :=
  ⟨List.reverse_perm _, by decide,
    stat_level_counts_are_histogram scatteredSamples _ (List.reverse_perm _) 5 (by decide)⟩

/-! ## GetRoadlaneByName: the lookup and the scan -/

theorem mapGet_mapSet (m : List (Int × Nat)) (k : Int) (v : Nat) (k2 : Int) :
    mapGet (mapSet m k v) k2 = if k = k2 then some v else mapGet m k2 := by
  induction m with
  | nil => simp [mapSet, mapGet]
  | cons e m ih =>
    obtain ⟨k1, v1⟩ := e
    by_cases h1 : k1 = k
    · subst h1
      by_cases h2 : k1 = k2 <;> simp [mapSet, mapGet, h2]
    · by_cases h2 : k1 = k2
      · subst h2
        have h3 : ¬ k = k1 := fun h => h1 h.symm
        simp [mapSet, mapGet, h1, h3]
      · simp [mapSet, mapGet, h1, h2, ih]

theorem mapGet_indexLanes_of_not_mem (ls : List mapLane) (m : List (Int × Nat)) (p : Nat)
    (id : Int) (h : id ∉ ls.map mapLane.ID) :
    mapGet (indexLanes m p ls) id = mapGet m id := by
  induction ls generalizing m p with
  | nil => rfl
  | cons l ls ih =>
    simp only [List.map_cons, List.mem_cons, not_or] at h
    rw [indexLanes, ih _ _ h.2, mapGet_mapSet, if_neg (fun e => h.1 e.symm)]

theorem mapGet_indexLanes_of_mem (ls : List mapLane) (m : List (Int × Nat)) (p : Nat)
    (id : Int) (h : id ∈ ls.map mapLane.ID) :
    ∃ q l, mapGet (indexLanes m p ls) id = some (p + q) ∧ ls.get? q = some l ∧ l.ID = id := by
  induction ls generalizing m p with
  | nil => simp at h
  | cons l ls ih =>
    by_cases h2 : id ∈ ls.map mapLane.ID
    · obtain ⟨q, l2, hq, hl, hid⟩ := ih (mapSet m l.ID p) (p + 1) h2
      refine ⟨q + 1, l2, ?_, ?_, hid⟩
      · rw [indexLanes, hq]
        congr 1
        omega
      · simpa using hl
    · have h3 : l.ID = id := by
        simp only [List.map_cons, List.mem_cons] at h
        rcases h with h | h
        · exact h.symm
        · exact absurd h h2
      refine ⟨0, l, ?_, rfl, h3⟩
      rw [indexLanes, mapGet_indexLanes_of_not_mem _ _ _ _ h2, mapGet_mapSet, if_pos h3]
      rfl

/-- The lookup `id2Lanes`: an id is found exactly when a candidate lane has it, and the
pointer found leads to a candidate lane with that id. -/
theorem mapGet_buildId2Lanes (lanes : List mapLane) (id : Int) :
    (mapGet (buildId2Lanes lanes) id = none ↔ id ∉ lanes.map mapLane.ID) ∧
      ∀ p, mapGet (buildId2Lanes lanes) id = some p →
        ∃ l, lanes.get? p = some l ∧ l.ID = id := by
  by_cases h : id ∈ lanes.map mapLane.ID
  · obtain ⟨q, l, hq, hl, hid⟩ := mapGet_indexLanes_of_mem lanes [] 0 id h
    rw [Nat.zero_add] at hq
    refine ⟨?_, ?_⟩
    · simp [buildId2Lanes, hq, h]
    · intro p hp
      rw [buildId2Lanes, hq] at hp
      cases hp
      exact ⟨l, hl, hid⟩
  · have h0 := mapGet_indexLanes_of_not_mem lanes [] 0 id h
    refine ⟨?_, ?_⟩
    · simp [buildId2Lanes, h0, h, mapGet]
    · intro p hp
      rw [buildId2Lanes, h0] at hp
      simp [mapGet] at hp

theorem scanLanes_none (m : List (Int × Nat)) (ids : List Int) (n : Nat)
    (hn : n ≤ ids.length) :
    scanLanes m ids n = none ↔
      ∀ j id, j < n → ids.get? j = some id → mapGet m id = none := by
  induction n with
  | zero => simp [scanLanes]
  | succ i ih =>
    have hi : i < ids.length := hn
    have hget : ids.get? i = some (ids.get ⟨i, hi⟩) := List.get?_eq_get hi
    rw [scanLanes, hget]
    cases hm : mapGet m (ids.get ⟨i, hi⟩) with
    | some lane =>
      simp only [hm, false_iff, not_forall, reduceCtorEq]
      exact ⟨i, _, Nat.lt_succ_self i, hget, by rw [hm]; exact Option.some_ne_none _⟩
    | none =>
      simp only [hm]
      rw [ih (Nat.le_of_lt hi)]
      constructor
      · intro h j id hj hid
        rcases Nat.lt_succ_iff_lt_or_eq.1 hj with hj | hj
        · exact h j id hj hid
        · subst hj
          rw [hget] at hid
          cases hid
          exact hm
      · intro h j id hj hid
        exact h j id (Nat.lt_succ_of_lt hj) hid

theorem scanLanes_some (m : List (Int × Nat)) (ids : List Int) (n : Nat)
    (hn : n ≤ ids.length) (i lane : Nat) :
    scanLanes m ids n = some (i, lane) ↔
      i < n ∧ (∃ id, ids.get? i = some id ∧ mapGet m id = some lane) ∧
        ∀ j id, i < j → j < n → ids.get? j = some id → mapGet m id = none := by
  induction n with
  | zero => simp [scanLanes]
  | succ k ih =>
    have hk : k < ids.length := hn
    have hget : ids.get? k = some (ids.get ⟨k, hk⟩) := List.get?_eq_get hk
    rw [scanLanes, hget]
    cases hm : mapGet m (ids.get ⟨k, hk⟩) with
    | some lane2 =>
      simp only [hm, Option.some.injEq, Prod.mk.injEq]
      constructor
      · rintro ⟨rfl, rfl⟩
        refine ⟨Nat.lt_succ_self _, ⟨_, hget, hm⟩, ?_⟩
        intro j id h1 h2
        omega
      · rintro ⟨h1, ⟨id, hid, hlane⟩, h3⟩
        rcases Nat.lt_succ_iff_lt_or_eq.1 h1 with h1 | h1
        · have := h3 k _ h1 (Nat.lt_succ_self _) hget
          rw [hm] at this
          cases this
        · subst h1
          rw [hget] at hid
          cases hid
          rw [hm] at hlane
          cases hlane
          exact ⟨rfl, rfl⟩
    | none =>
      simp only [hm]
      rw [ih (Nat.le_of_lt hk)]
      constructor
      · rintro ⟨h1, h2, h3⟩
        refine ⟨Nat.lt_succ_of_lt h1, h2, ?_⟩
        intro j id hj1 hj2 hid
        rcases Nat.lt_succ_iff_lt_or_eq.1 hj2 with hj2 | hj2
        · exact h3 j id hj1 hj2 hid
        · subst hj2
          rw [hget] at hid
          cases hid
          exact hm
      · rintro ⟨h1, ⟨id, hid, hlane⟩, h3⟩
        rcases Nat.lt_succ_iff_lt_or_eq.1 h1 with h1 | h1
        · exact ⟨h1, ⟨id, hid, hlane⟩, fun j id2 hj1 hj2 hid2 =>
            h3 j id2 hj1 (Nat.lt_succ_of_lt hj2) hid2⟩
        · subst h1
          rw [hget] at hid
          cases hid
          rw [hm] at hlane
          cases hlane

theorem chooseLane_some (m : List (Int × Nat)) (r : mapRoad) (p : Nat) :
    chooseLane m r = some p ↔
      ∃ i id, r.LaneIDs.get? i = some id ∧ mapGet m id = some p ∧
        ∀ j id2, i < j → r.LaneIDs.get? j = some id2 → mapGet m id2 = none := by
  unfold chooseLane
  constructor
  · intro h
    obtain ⟨⟨i, q⟩, hs, hq⟩ := Option.map_eq_some'.1 h
    simp only at hq
    subst hq
    obtain ⟨_, ⟨id, hid, hm⟩, h3⟩ := (scanLanes_some m _ _ (Nat.le_refl _) i q).1 hs
    refine ⟨i, id, hid, hm, ?_⟩
    intro j id2 hj hid2
    have hj2 : j < r.LaneIDs.length := by
      by_contra hc
      rw [List.get?_eq_none.2 (Nat.le_of_not_lt hc)] at hid2
      cases hid2
    exact h3 j id2 hj hj2 hid2
  · rintro ⟨i, id, hid, hm, h3⟩
    have hi : i < r.LaneIDs.length := by
      by_contra hc
      rw [List.get?_eq_none.2 (Nat.le_of_not_lt hc)] at hid
      cases hid
    have := (scanLanes_some m _ _ (Nat.le_refl _) i p).2
      ⟨hi, ⟨id, hid, hm⟩, fun j id2 hj _ hid2 => h3 j id2 hj hid2⟩
    rw [this]
    rfl

theorem chooseLane_none (m : List (Int × Nat)) (r : mapRoad) :
    chooseLane m r = none ↔ ∀ id ∈ r.LaneIDs, mapGet m id = none := by
  unfold chooseLane
  rw [Option.map_eq_none', scanLanes_none m _ _ (Nat.le_refl _)]
  constructor
  · intro h id hid
    obtain ⟨j, hj⟩ := List.mem_iff_get?.1 hid
    have hj2 : j < r.LaneIDs.length := by
      by_contra hc
      rw [List.get?_eq_none.2 (Nat.le_of_not_lt hc)] at hj
      cases hj
    exact h j id hj2 hj
  · intro h j id _ hid
    exact h id (List.mem_iff_get?.2 ⟨j, hid⟩)

/-- Claim C4: the lane chosen for a road is the candidate lane found under the lane id
at the greatest index of the road's lane-id list that is the id of a candidate lane; a
road none of whose lane ids is a candidate's (so also a road without lane ids) gets no
lane. With lane ids `[10, 11, 12]` and candidates 10 and 12 the lane 12 is chosen. -/
theorem road_lane_choice (lanes : List mapLane) (r : mapRoad) :
    (∀ p, chooseLane (buildId2Lanes lanes) r = some p ↔
      ∃ i id, r.LaneIDs.get? i = some id ∧ mapGet (buildId2Lanes lanes) id = some p ∧
        ∀ j id2, i < j → r.LaneIDs.get? j = some id2 → id2 ∉ lanes.map mapLane.ID) ∧
      (chooseLane (buildId2Lanes lanes) r = none ↔
        ∀ id ∈ r.LaneIDs, id ∉ lanes.map mapLane.ID) ∧
      (∀ id p, mapGet (buildId2Lanes lanes) id = some p →
        ∃ l, lanes.get? p = some l ∧ l.ID = id) ∧
      (r.LaneIDs = [] → chooseLane (buildId2Lanes lanes) r = none) ∧
      (chooseLane (buildId2Lanes exampleLanes) exampleRoad).map
        (fun p => (exampleLanes.get? p).map mapLane.ID) = some (some 12) := by
  refine ⟨?_, ?_, ?_, ?_, by decide⟩
  · intro p
    rw [chooseLane_some]
    constructor
    · rintro ⟨i, id, hid, hm, h3⟩
      exact ⟨i, id, hid, hm, fun j id2 hj hid2 =>
        (mapGet_buildId2Lanes lanes id2).1.1 (h3 j id2 hj hid2)⟩
    · rintro ⟨i, id, hid, hm, h3⟩
      exact ⟨i, id, hid, hm, fun j id2 hj hid2 =>
        (mapGet_buildId2Lanes lanes id2).1.2 (h3 j id2 hj hid2)⟩
  · rw [chooseLane_none]
    constructor
    · intro h id hid
      exact (mapGet_buildId2Lanes lanes id).1.1 (h id hid)
    · intro h id hid
      exact (mapGet_buildId2Lanes lanes id).1.2 (h id hid)
  · intro id p hp
    exact (mapGet_buildId2Lanes lanes id).2 p hp
  · intro h
    rw [chooseLane_none, h]
    intro id hid
    cases hid

/-! ## GetRoadlaneByName: the features -/

/-- The call `newGeoJsonLane` on converted coordinates never indexes out of range. -/
theorem newGeoJsonLane_convert (P : Projector) (id typ : Int) (line : List mapNode) :
    newGeoJsonLane id typ (line.map (convertToLngLat P)) =
      some { ID := id
             Geometry := Geometry.LineString (line.map (convertToPoint P))
             Properties := [("id", id), ("type", typ)] } := by
  have h : (line.map (convertToLngLat P)).mapM (fun (c : List ℚ) =>
      match c.get? 0, c.get? 1 with
      | some a, some b => some (a, b)
      | _, _ => none) = some (line.map (convertToPoint P)) := by
    induction line with
    | nil => rfl
    | cons n ns ih =>
      simp only [List.map_cons, List.mapM_cons, ih]
      rfl
  unfold newGeoJsonLane
  rw [h]
  rfl

theorem FilterMap_all {α β : Type} (callback : α → Option (Option β)) (f : α → β)
    (l : List α) (h : ∀ x ∈ l, callback x = some (some (f x))) :
    FilterMap callback l = some (l.map f) := by
  induction l with
  | nil => rfl
  | cons x xs ih =>
    rw [FilterMap, h x (List.mem_cons_self _ _),
      ih (fun y hy => h y (List.mem_cons_of_mem _ hy))]
    rfl

theorem qualifies_iff (lanes : List mapLane) (r : mapRoad) :
    qualifies lanes r = true ↔ ∃ p, chooseLane (buildId2Lanes lanes) r = some p := by
  simp only [qualifies, List.any_eq_true, decide_eq_true_eq]
  constructor
  · rintro ⟨id, hid, hmem⟩
    cases hc : chooseLane (buildId2Lanes lanes) r with
    | some p => exact ⟨p, rfl⟩
    | none =>
      exact absurd hmem
        ((mapGet_buildId2Lanes lanes id).1.1 ((chooseLane_none _ _).1 hc id hid))
  · rintro ⟨p, hp⟩
    by_contra hc
    have hn : chooseLane (buildId2Lanes lanes) r = none := by
      rw [chooseLane_none]
      intro id hid
      exact (mapGet_buildId2Lanes lanes id).1.2 (fun hmem => hc ⟨id, hid, hmem⟩)
    rw [hn] at hp
    cases hp

theorem setID_length (heap : List mapLane) (p : Nat) (id : Int) :
    (setID heap p id).length = heap.length := by
  unfold setID
  split <;> simp

theorem selectRoadLanes_snoc (lanes : List mapLane) (roads : List mapRoad) (r : mapRoad) :
    selectRoadLanes lanes (roads ++ [r]) =
      roadStep (buildId2Lanes lanes) (selectRoadLanes lanes roads) r := by
  simp [selectRoadLanes, List.foldl_append]

/-- The slice `roadLanes` after the loop: the lanes chosen by the roads, in road order;
the heap keeps its size. -/
theorem selectRoadLanes_roadLanes (lanes : List mapLane) (roads : List mapRoad) :
    (selectRoadLanes lanes roads).roadLanes =
        roads.filterMap (chooseLane (buildId2Lanes lanes)) ∧
      (selectRoadLanes lanes roads).heap.length = lanes.length := by
  induction roads using List.reverseRecOn with
  | nil => exact ⟨rfl, rfl⟩
  | append_singleton roads r ih =>
    rw [selectRoadLanes_snoc, List.filterMap_append]
    unfold roadStep
    cases hc : chooseLane (buildId2Lanes lanes) r with
    | none => simpa [List.filterMap_cons, hc] using ih
    | some p =>
      simp only [List.filterMap_cons, hc, List.filterMap_nil, setID_length]
      exact ⟨by rw [ih.1], ih.2⟩

theorem chooseLane_lt (lanes : List mapLane) (r : mapRoad) (p : Nat)
    (h : chooseLane (buildId2Lanes lanes) r = some p) : p < lanes.length := by
  obtain ⟨i, id, _, hm, _⟩ := (chooseLane_some _ _ _).1 h
  obtain ⟨l, hl, _⟩ := (mapGet_buildId2Lanes lanes id).2 p hm
  by_contra hc
  rw [List.get?_eq_none.2 (Nat.le_of_not_lt hc)] at hl
  cases hl

theorem length_filterMap_chooseLane (lanes : List mapLane) (roads : List mapRoad) :
    (roads.filterMap (chooseLane (buildId2Lanes lanes))).length =
      (roads.filter (qualifies lanes)).length := by
  induction roads with
  | nil => rfl
  | cons r rs ih =>
    rw [List.filterMap_cons, List.filter_cons]
    cases hc : chooseLane (buildId2Lanes lanes) r with
    | none =>
      have hq : ¬ qualifies lanes r = true := by
        rw [qualifies_iff, hc]
        simp
      simp only [hq, if_false]
      exact ih
    | some p =>
      have hq : qualifies lanes r = true := (qualifies_iff lanes r).2 ⟨p, hc⟩
      simp only [hq, if_true, List.length_cons, ih]

/-- The features of `GetRoadlaneByName`: building them never panics, and there is one
per chosen lane pointer, made from the object the pointer leads to after the loop. -/
theorem roadLaneFeatures_eq (P : Projector) (lanes : List mapLane) (roads : List mapRoad) :
    roadLaneFeatures P lanes roads =
      some ((roads.filterMap (chooseLane (buildId2Lanes lanes))).map (fun p =>
        let l := ((selectRoadLanes lanes roads).heap.get? p).getD default
        laneFeature P l.ID l)) := by
  obtain ⟨hrl, hlen⟩ := selectRoadLanes_roadLanes lanes roads
  unfold roadLaneFeatures
  simp only
  rw [hrl]
  apply FilterMap_all
  intro p hp
  obtain ⟨r, _, hr⟩ := List.mem_filterMap.1 hp
  have hlt : p < (selectRoadLanes lanes roads).heap.length := by
    rw [hlen]
    exact chooseLane_lt lanes r p hr
  unfold roadLaneCallback
  rw [List.get?_eq_get hlt]
  simp only [newGeoJsonLane_convert]
  rfl

/-- Claim C6: building the features of `GetRoadlaneByName` ends without a panic, the
number of features is the number of roads that have a lane id among the candidate
lanes, so at most the number of roads, and a road with no such lane id leaves the loop
state as it is: it adds no feature. -/
theorem road_feature_count (P : Projector) (lanes : List mapLane) (roads : List mapRoad) :
    (∃ fs, roadLaneFeatures P lanes roads = some fs ∧
      fs.length = (roads.filter (qualifies lanes)).length ∧
      fs.length ≤ roads.length) ∧
      ∀ (st : RoadLoop) (r : mapRoad), qualifies lanes r = false →
        roadStep (buildId2Lanes lanes) st r = st := by
  constructor
  · refine ⟨_, roadLaneFeatures_eq P lanes roads, ?_, ?_⟩
    · rw [List.length_map, length_filterMap_chooseLane]
    · rw [List.length_map, length_filterMap_chooseLane]
      exact List.length_filter_le _ _
  · intro st r hq
    have hn : chooseLane (buildId2Lanes lanes) r = none := by
      cases hc : chooseLane (buildId2Lanes lanes) r with
      | none => rfl
      | some p =>
        have := (qualifies_iff lanes r).2 ⟨p, hc⟩
        rw [hq] at this
        cases this
    unfold roadStep
    rw [hn]

/-! ## GetRoadlaneByName: the relabelling -/

theorem get?_setID (heap : List mapLane) (p : Nat) (id : Int) (q : Nat) :
    (setID heap p id).get? q =
      if q = p then (heap.get? q).map (fun l => { l with ID := id }) else heap.get? q := by
  unfold setID
  cases h : heap.get? p with
  | none =>
    by_cases hq : q = p
    · subst hq
      simp only [if_true, h]
      rfl
    · simp only [hq, if_false]
  | some l =>
    by_cases hq : q = p
    · subst hq
      have hlt : q < heap.length := by
        by_contra hc
        rw [List.get?_eq_none.2 (Nat.le_of_not_lt hc)] at h
        cases h
      rw [List.get?_eq_get hlt] at h
      cases h
      simp [List.getElem?_set, hlt, List.getElem?_eq_getElem hlt]
    · have hq2 : ¬ p = q := fun e => hq e.symm
      simp [hq, hq2, List.getElem?_set]

/-- The heap after the loop when no two roads choose the same lane: the object behind a
chosen pointer carries the id of the road that chose it, every other object is as
fetched. -/
theorem selectRoadLanes_heap (lanes : List mapLane) (roads : List mapRoad)
    (hnd : (roads.filterMap (chooseLane (buildId2Lanes lanes))).Nodup) (q : Nat) :
    (selectRoadLanes lanes roads).heap.get? q =
      (lanes.get? q).map (fun l =>
        match roads.find? (fun r => decide (chooseLane (buildId2Lanes lanes) r = some q)) with
        | some r => { l with ID := r.ID }
        | none => l) := by
  induction roads using List.reverseRecOn with
  | nil =>
    simp only [selectRoadLanes, List.foldl_nil, List.find?_nil]
    cases lanes.get? q <;> rfl
  | append_singleton roads r ih =>
    rw [List.filterMap_append, List.nodup_append] at hnd
    obtain ⟨hnd1, _, hdisj⟩ := hnd
    have ih := ih hnd1
    rw [selectRoadLanes_snoc, List.find?_append]
    unfold roadStep
    cases hc : chooseLane (buildId2Lanes lanes) r with
    | none =>
      simp only [List.find?_cons, hc, List.find?_nil, reduceCtorEq, decide_False,
        Option.or_none]
      exact ih
    | some p =>
      simp only [get?_setID]
      by_cases hq : q = p
      · subst hq
        have hnot : q ∉ roads.filterMap (chooseLane (buildId2Lanes lanes)) := by
          intro hmem
          exact hdisj hmem (by simp [List.filterMap_cons, hc])
        have hfind : roads.find?
            (fun r => decide (chooseLane (buildId2Lanes lanes) r = some q)) = none := by
          rw [List.find?_eq_none]
          intro x hx hx2
          simp only [decide_eq_true_eq] at hx2
          exact hnot (List.mem_filterMap.2 ⟨x, hx, hx2⟩)
        rw [if_pos rfl, ih, hfind]
        cases lanes.get? q <;> simp [List.find?_cons, hc]
      · rw [if_neg hq, ih]
        have hpq : ¬ p = q := fun e => hq e.symm
        cases hf : roads.find?
            (fun r => decide (chooseLane (buildId2Lanes lanes) r = some q)) <;>
          simp [List.find?_cons, hc, hpq]

theorem find?_of_nodup_filterMap {α β : Type} [DecidableEq β] (f : α → Option β)
    (l : List α) (hnd : (l.filterMap f).Nodup) (a : α) (ha : a ∈ l) (b : β)
    (hb : f a = some b) : l.find? (fun x => decide (f x = some b)) = some a := by
  induction l with
  | nil => cases ha
  | cons x xs ih =>
    rw [List.find?_cons]
    by_cases hx : f x = some b
    · simp only [hx, decide_True]
      rcases List.mem_cons.1 ha with h | h
      · rw [h]
      · exfalso
        rw [List.filterMap_cons, hx, List.nodup_cons] at hnd
        exact hnd.1 (List.mem_filterMap.2 ⟨a, h, hb⟩)
    · simp only [hx, decide_False]
      rcases List.mem_cons.1 ha with h | h
      · rw [h] at hb
        exact absurd hb hx
      · apply ih _ h
        rw [List.filterMap_cons] at hnd
        cases hfx : f x with
        | none =>
          rw [hfx] at hnd
          exact hnd
        | some c =>
          rw [hfx] at hnd
          exact (List.nodup_cons.1 hnd).2

/-- When no two roads choose the same lane, every road with a candidate lane gives one
feature, in road order, with the road's id as feature ID and `id` property and with
the centre line and type of the lane it chose. -/
theorem road_features_of_distinct_choices (P : Projector) (lanes : List mapLane)
    (roads : List mapRoad)
    (hnd : (roads.filterMap (chooseLane (buildId2Lanes lanes))).Nodup) :
    roadLaneFeatures P lanes roads =
        some (roads.filterMap (fun r =>
          (chooseLane (buildId2Lanes lanes) r).bind (fun p =>
            (lanes.get? p).map (laneFeature P r.ID)))) ∧
      (roadLaneFeatures P lanes roads).map (List.map Feature.ID) =
        some ((roads.filter (qualifies lanes)).map mapRoad.ID) := by
  have h1 : roadLaneFeatures P lanes roads =
      some (roads.filterMap (fun r =>
        (chooseLane (buildId2Lanes lanes) r).bind (fun p =>
          (lanes.get? p).map (laneFeature P r.ID)))) := by
    rw [roadLaneFeatures_eq, List.map_filterMap]
    congr 1
    apply List.filterMap_congr
    intro r hr
    cases hc : chooseLane (buildId2Lanes lanes) r with
    | none => rfl
    | some p =>
      have hlt := chooseLane_lt lanes r p hc
      have hf := find?_of_nodup_filterMap _ roads hnd r hr p hc
      simp only [Option.map_some', Option.some_bind, selectRoadLanes_heap lanes roads hnd p,
        hf, List.get?_eq_get hlt, Option.getD_some]
      rfl
  refine ⟨h1, ?_⟩
  rw [h1, Option.map_some']
  congr 1
  clear h1 hnd
  induction roads with
  | nil => rfl
  | cons r rs ih =>
    rw [List.filterMap_cons, List.filter_cons]
    cases hc : chooseLane (buildId2Lanes lanes) r with
    | none =>
      have hq : ¬ qualifies lanes r = true := by
        rw [qualifies_iff, hc]
        simp
      simp only [Option.none_bind, hq, if_false]
      exact ih
    | some p =>
      have hq : qualifies lanes r = true := (qualifies_iff lanes r).2 ⟨p, hc⟩
      have hlt := chooseLane_lt lanes r p hc
      simp only [Option.some_bind, List.get?_eq_get hlt, Option.map_some', hq, if_true,
        List.map_cons, ih]
      rfl

/-- Claim C5, at an input where two roads list the same candidate lane: the roads with
a qualifying lane have the ids 1 and 2, in this order, and both emitted features carry
the id 2, since the second road relabels the lane object the first feature is made
from. -/
theorem road_feature_ids_shared_lane :
    (roadLaneFeatures (fun c => c) sharedLanes sharingRoads).map (List.map Feature.ID) =
        some [2, 2] ∧
      (sharingRoads.filter (qualifies sharedLanes)).map mapRoad.ID = [1, 2] := by
  decide

/-! ## downloadLanes -/

theorem laneCallback_eq (minXY maxXY : Coord) (P : Projector) (l : mapLane) :
    laneCallback minXY maxXY P l =
      some (if included minXY maxXY l then some (laneFeature P l.ID l) else none) := by
  unfold laneCallback included
  cases h : l.Line.any (inMicroscopic minXY maxXY)
  · rfl
  · simp only [Bool.not_true, Bool.false_eq_true, if_false, newGeoJsonLane_convert, if_true]
    rfl

theorem FilterMap_filter {α β : Type} (callback : α → Option (Option β)) (keep : α → Bool)
    (f : α → β) (l : List α)
    (h : ∀ x ∈ l, callback x = some (if keep x then some (f x) else none)) :
    FilterMap callback l = some ((l.filter keep).map f) := by
  induction l with
  | nil => rfl
  | cons x xs ih =>
    rw [FilterMap, h x (List.mem_cons_self _ _),
      ih (fun y hy => h y (List.mem_cons_of_mem _ hy)), List.filter_cons]
    cases keep x <;> rfl

/-- A run of `downloadLanes` that gets past the error exits writes no response and
returns, with `finished = false`, the features of the fetched lanes that have a point
in the box, in the order of the fetched lanes. -/
theorem downloadLanes_success (w : World) (name : String) (typ : LaneType) (m : Metadata)
    (db coll : String) (P L : Projector) (hready : Ready w name m db coll P L)
    (hfetched : Fetched w db coll typ m L) :
    downloadLanes w name typ =
      Outcome.returned []
        (((laneResult w db coll typ m L).rows.filter
            (included (localBounds m L).1 (localBounds m L).2)).map
          (fun l => laneFeature P l.ID l), false) := by
  obtain ⟨h1, h2, h3, h4, h5, h6, h7⟩ := hready
  obtain ⟨h8, h9⟩ := hfetched
  unfold laneResult at h8 h9
  unfold downloadLanes
  simp only [h1, Option.isSome_none, Bool.false_eq_true, if_false]
  cases hm : (w.QueryMetadata name).1 with
  | nil =>
    rw [hm] at h2
    cases h2
  | cons m0 rest =>
    rw [hm] at h2
    simp only [List.head?_cons, Option.some.injEq] at h2
    subst h2
    simp only [h3, h4, h5, h6, h7, h8, h9, Option.isSome_none, Bool.false_eq_true, if_false]
    rw [FilterMap_filter _ (included (localBounds m0 L).1 (localBounds m0 L).2)
      (fun l => laneFeature P l.ID l) _ (fun x _ => laneCallback_eq _ _ P x)]
    rfl

theorem ready_worldOf (docs : List LaneDoc) (name : String) :
    Ready (worldOf docs) name sampleMeta "db" "map" swapAxes swapAxes :=
  ⟨rfl, rfl, by decide, rfl, rfl, rfl, rfl⟩

theorem fetched_worldOf (docs : List LaneDoc) (typ : LaneType) :
    Fetched (worldOf docs) "db" "map" typ sampleMeta swapAxes :=
  ⟨rfl, rfl⟩

theorem included_iff (minXY maxXY : Coord) (l : mapLane) :
    included minXY maxXY l = true ↔
      ∃ n ∈ l.Line, minXY.X ≤ n.X ∧ n.X ≤ maxXY.X ∧ minXY.Y ≤ n.Y ∧ n.Y ≤ maxXY.Y := by
  simp only [included, inMicroscopic, List.any_eq_true, Bool.and_eq_true, decide_eq_true_eq,
    and_assoc]

/-- Claim C7: in a run of `downloadLanes` that gets past the error exits, a fetched lane
gives a feature exactly when it passes the test `included`, and a lane passes it if and
only if some point of its centre line has `minX <= x <= maxX` and `minY <= y <= maxY`,
all four bounds inclusive; the store's `$elemMatch` condition is the same test; a lane
with an empty centre line never passes; when no fetched lane passes, the run returns
the empty list with `finished = false` and writes no response. -/
theorem lane_included_iff_point_in_box (w : World) (name : String) (typ : LaneType)
    (m : Metadata) (db coll : String) (P L : Projector)
    (hready : Ready w name m db coll P L) (hfetched : Fetched w db coll typ m L) :
    downloadLanes w name typ =
        Outcome.returned []
          (((laneResult w db coll typ m L).rows.filter
              (included (localBounds m L).1 (localBounds m L).2)).map
            (fun l => laneFeature P l.ID l), false) ∧
      (∀ (minXY maxXY : Coord) (l : mapLane), included minXY maxXY l = true ↔
        ∃ n ∈ l.Line, minXY.X ≤ n.X ∧ n.X ≤ maxXY.X ∧ minXY.Y ≤ n.Y ∧ n.Y ≤ maxXY.Y) ∧
      (∀ (f : ParentFilter) (minXY maxXY : Coord) (d : LaneDoc),
        (LaneQuery.inBox f minXY.X maxXY.X minXY.Y maxXY.Y).holds d =
          (f.holds d.parent_id && included minXY maxXY d.project)) ∧
      (∀ (minXY maxXY : Coord) (l : mapLane), l.Line = [] → included minXY maxXY l = false) ∧
      ((∀ l ∈ (laneResult w db coll typ m L).rows,
          included (localBounds m L).1 (localBounds m L).2 l = false) →
        downloadLanes w name typ = Outcome.returned [] ([], false)) := by
  have hrun := downloadLanes_success w name typ m db coll P L hready hfetched
  refine ⟨hrun, included_iff, fun _ _ _ _ => rfl, ?_, ?_⟩
  · intro minXY maxXY l hl
    rw [included, hl]
    rfl
  · intro hnone
    rw [hrun, List.filter_eq_nil_iff.2 (fun l hl => by rw [hnone l hl]; exact Bool.false_ne_true)]
    rfl

theorem lane_included_iff_point_in_box_witness :
    Ready (worldOf sampleDocs) "sim" sampleMeta "db" "map" swapAxes swapAxes ∧
      Fetched (worldOf sampleDocs) "db" "map" LaneType.AllLane sampleMeta swapAxes ∧
      (downloadLanes (worldOf sampleDocs) "sim" LaneType.AllLane =
          Outcome.returned []
            (((laneResult (worldOf sampleDocs) "db" "map" LaneType.AllLane sampleMeta
                  swapAxes).rows.filter
                (included (localBounds sampleMeta swapAxes).1
                  (localBounds sampleMeta swapAxes).2)).map
              (fun l => laneFeature swapAxes l.ID l), false) ∧
        (∀ (minXY maxXY : Coord) (l : mapLane), included minXY maxXY l = true ↔
          ∃ n ∈ l.Line, minXY.X ≤ n.X ∧ n.X ≤ maxXY.X ∧ minXY.Y ≤ n.Y ∧ n.Y ≤ maxXY.Y) ∧
        (∀ (f : ParentFilter) (minXY maxXY : Coord) (d : LaneDoc),
          (LaneQuery.inBox f minXY.X maxXY.X minXY.Y maxXY.Y).holds d =
            (f.holds d.parent_id && included minXY maxXY d.project)) ∧
        (∀ (minXY maxXY : Coord) (l : mapLane),
          l.Line = [] → included minXY maxXY l = false) ∧
        ((∀ l ∈ (laneResult (worldOf sampleDocs) "db" "map" LaneType.AllLane sampleMeta
              swapAxes).rows,
            included (localBounds sampleMeta swapAxes).1
              (localBounds sampleMeta swapAxes).2 l = false) →
          downloadLanes (worldOf sampleDocs) "sim" LaneType.AllLane =
            Outcome.returned [] ([], false))) :=
  ⟨ready_worldOf sampleDocs "sim", fetched_worldOf sampleDocs LaneType.AllLane,
    lane_included_iff_point_in_box (worldOf sampleDocs) "sim" LaneType.AllLane sampleMeta
      "db" "map" swapAxes swapAxes (ready_worldOf sampleDocs "sim")
      (fetched_worldOf sampleDocs LaneType.AllLane)⟩

/-! ## The local bounds -/

/-- Claim C8, refuted as stated: with a projector that negates both axes and the box
from (0, 0) to (10, 10) the lower x bound used is 0 while the smaller of the two
projected x values is -10, so the bounds are not the componentwise minimum and
maximum of the projected corners for every projector. -/
theorem local_bounds_not_min_max :
    ¬ (∀ (m : Metadata) (L : Projector),
        (localBounds m L).1.X =
            min (L { X := m.MinLat, Y := m.MinLng }).X (L { X := m.MaxLat, Y := m.MaxLng }).X ∧
          (localBounds m L).2.X =
            max (L { X := m.MinLat, Y := m.MinLng }).X (L { X := m.MaxLat, Y := m.MaxLng }).X ∧
          (localBounds m L).1.Y =
            min (L { X := m.MinLat, Y := m.MinLng }).Y (L { X := m.MaxLat, Y := m.MaxLng }).Y ∧
          (localBounds m L).2.Y =
            max (L { X := m.MinLat, Y := m.MinLng }).Y
              (L { X := m.MaxLat, Y := m.MaxLng }).Y) := by
  intro h
  have h1 := (h sampleMeta negateAxes).1
  norm_num [localBounds, negateAxes, sampleMeta] at h1

/-- Claim C8, amended: the local bounds are the two projected corners as they are, the
lower bounds from the corner (MinLat, MinLng) and the upper bounds from the corner
(MaxLat, MaxLng), and these are the bounds the point test uses; on each axis they are
the minimum and the maximum of the two projected values exactly when the projected
lower corner is not above the projected upper corner on that axis. -/
theorem local_bounds_are_projected_corners (m : Metadata) (L : Projector) :
    localBounds m L =
        (L { X := m.MinLat, Y := m.MinLng }, L { X := m.MaxLat, Y := m.MaxLng }) ∧
      (∀ n : mapNode, inMicroscopic (localBounds m L).1 (localBounds m L).2 n = true ↔
        (L { X := m.MinLat, Y := m.MinLng }).X ≤ n.X ∧
          n.X ≤ (L { X := m.MaxLat, Y := m.MaxLng }).X ∧
          (L { X := m.MinLat, Y := m.MinLng }).Y ≤ n.Y ∧
          n.Y ≤ (L { X := m.MaxLat, Y := m.MaxLng }).Y) ∧
      (((localBounds m L).1.X =
            min (L { X := m.MinLat, Y := m.MinLng }).X (L { X := m.MaxLat, Y := m.MaxLng }).X ∧
          (localBounds m L).2.X =
            max (L { X := m.MinLat, Y := m.MinLng }).X
              (L { X := m.MaxLat, Y := m.MaxLng }).X) ↔
        (L { X := m.MinLat, Y := m.MinLng }).X ≤ (L { X := m.MaxLat, Y := m.MaxLng }).X) ∧
      (((localBounds m L).1.Y =
            min (L { X := m.MinLat, Y := m.MinLng }).Y (L { X := m.MaxLat, Y := m.MaxLng }).Y ∧
          (localBounds m L).2.Y =
            max (L { X := m.MinLat, Y := m.MinLng }).Y
              (L { X := m.MaxLat, Y := m.MaxLng }).Y) ↔
        (L { X := m.MinLat, Y := m.MinLng }).Y ≤ (L { X := m.MaxLat, Y := m.MaxLng }).Y) := by
  refine ⟨rfl, ?_, ?_, ?_⟩
  · intro n
    simp only [inMicroscopic, localBounds, Bool.and_eq_true, decide_eq_true_eq, and_assoc]
  · simp only [localBounds]
    constructor
    · rintro ⟨h1, _⟩
      rw [h1]
      exact min_le_right _ _
    · intro h
      exact ⟨(min_eq_left h).symm, (max_eq_right h).symm⟩
  · simp only [localBounds]
    constructor
    · rintro ⟨h1, _⟩
      rw [h1]
      exact min_le_right _ _
    · intro h
      exact ⟨(min_eq_left h).symm, (max_eq_right h).symm⟩

/-! ## The emitted lane features -/

/-- Claim C9: in a run of `downloadLanes` that gets past the error exits, every included
lane gives a feature whose ID and `id` property are the lane id, whose `type` property
is the lane type, and whose line string has one coordinate per point of the centre
line, in the same order, the i-th being `(Y, X)` of the projection of the i-th point
(no point is dropped, inside the box or not); the box corners are packed with
`X = latitude` and `Y = longitude`. -/
theorem lane_feature_shape (w : World) (name : String) (typ : LaneType)
    (m : Metadata) (db coll : String) (P L : Projector)
    (hready : Ready w name m db coll P L) (hfetched : Fetched w db coll typ m L) :
    downloadLanes w name typ =
        Outcome.returned []
          (((laneResult w db coll typ m L).rows.filter
              (included (localBounds m L).1 (localBounds m L).2)).map
            (fun l =>
              { ID := l.ID
                Geometry := Geometry.LineString
                  (l.Line.map (fun n =>
                    ((P { X := n.X, Y := n.Y }).Y, (P { X := n.X, Y := n.Y }).X)))
                Properties := [("id", l.ID), ("type", l.Typ)] }), false) ∧
      (∀ l : mapLane,
        (l.Line.map (fun n =>
          ((P { X := n.X, Y := n.Y }).Y, (P { X := n.X, Y := n.Y }).X))).length =
            l.Line.length ∧
        ∀ i, (l.Line.map (fun n =>
          ((P { X := n.X, Y := n.Y }).Y, (P { X := n.X, Y := n.Y }).X))).get? i =
            (l.Line.get? i).map (fun n =>
              ((P { X := n.X, Y := n.Y }).Y, (P { X := n.X, Y := n.Y }).X))) ∧
      localBounds m L =
        (L { X := m.MinLat, Y := m.MinLng }, L { X := m.MaxLat, Y := m.MaxLng }) := by
  refine ⟨downloadLanes_success w name typ m db coll P L hready hfetched, ?_, rfl⟩
  intro l
  exact ⟨List.length_map _ _, fun i => by simp [List.get?_eq_getElem?]⟩

theorem lane_feature_shape_witness :
    Ready (worldOf sampleDocs) "sim" sampleMeta "db" "map" swapAxes swapAxes ∧
      Fetched (worldOf sampleDocs) "db" "map" LaneType.RoadLane sampleMeta swapAxes ∧
      downloadLanes (worldOf sampleDocs) "sim" LaneType.RoadLane =
        Outcome.returned []
          ([{ ID := 1
              Geometry := Geometry.LineString [(-5, 3), (2, 3), (20, 3)]
              Properties := [("id", 1), ("type", 1)] }], false) :=
  ⟨ready_worldOf sampleDocs "sim", fetched_worldOf sampleDocs LaneType.RoadLane,
    (lane_feature_shape (worldOf sampleDocs) "sim" LaneType.RoadLane sampleMeta
      "db" "map" swapAxes swapAxes (ready_worldOf sampleDocs "sim")
      (fetched_worldOf sampleDocs LaneType.RoadLane)).1.trans (by decide)⟩

/-! ## The three lane kinds -/

/-- The ids of the features of a run of `downloadLanes` against a store that holds the
lane documents `docs`: the ids of the documents that pass the parent filter and have a
point in the box, in the order of the documents. -/
theorem featureIds_store (w : World) (name : String) (typ : LaneType)
    (m : Metadata) (db coll : String) (P L : Projector) (docs : List LaneDoc)
    (hready : Ready w name m db coll P L)
    (hstore : (w.mongo db coll).lanes = evalLaneQuery docs) :
    featureIds (downloadLanes w name typ) =
      (docs.filter (fun d => (parentIDFilter typ).holds d.parent_id &&
        included (localBounds m L).1 (localBounds m L).2 d.project)).map LaneDoc.id := by
  have hfetched : Fetched w db coll typ m L := by
    unfold Fetched laneResult
    rw [hstore]
    exact ⟨rfl, rfl⟩
  rw [downloadLanes_success w name typ m db coll P L hready hfetched]
  unfold laneResult
  rw [hstore]
  simp only [featureIds, evalLaneQuery, List.filter_map, List.map_map, List.filter_filter]
  have hmap : Feature.ID ∘ (fun l => laneFeature P l.ID l) ∘ LaneDoc.project = LaneDoc.id :=
    rfl
  rw [hmap]
  congr 1
  apply List.filter_congr
  intro d _
  show (included _ _ d.project && ((parentIDFilter typ).holds d.parent_id &&
      included _ _ d.project)) = _
  cases (parentIDFilter typ).holds d.parent_id <;>
    cases included (localBounds m L).1 (localBounds m L).2 d.project <;> rfl

theorem parent_kind_split (parent_id : Option Int) :
    ((parentIDFilter LaneType.AllLane).holds parent_id = true ↔
        (parentIDFilter LaneType.JunctionLane).holds parent_id = true ∨
          (parentIDFilter LaneType.RoadLane).holds parent_id = true) ∧
      ¬ ((parentIDFilter LaneType.JunctionLane).holds parent_id = true ∧
          (parentIDFilter LaneType.RoadLane).holds parent_id = true) := by
  cases parent_id with
  | none => simp [parentIDFilter, ParentFilter.holds]
  | some p =>
    simp only [parentIDFilter, ParentFilter.holds, decide_eq_true_eq, true_iff]
    omega

/-- Claim C10, refuted as stated: for the two documents of `duplicateDocs`, which carry
the same lane id 1 under a road parent and under a junction parent, the id 1 is both
among the feature ids for `JunctionLane` and among those for `RoadLane`. -/
theorem lane_kind_id_sets_meet :
    (1 : Int) ∈ featureIds (downloadLanes (worldOf duplicateDocs) "sim" LaneType.JunctionLane) ∧
      (1 : Int) ∈ featureIds (downloadLanes (worldOf duplicateDocs) "sim" LaneType.RoadLane) := by
  decide

/-- Claim C10, amended: against a store holding the lane documents `docs`, and for the
same box, an id is a feature id for `AllLane` exactly when it is one for `JunctionLane`
or for `RoadLane`; no document passes both the junction and the road parent filter;
and when the lane ids of the documents are pairwise distinct, no id is a feature id
for both `JunctionLane` and `RoadLane`. -/
theorem lane_kind_partition (w : World) (name : String) (m : Metadata) (db coll : String)
    (P L : Projector) (docs : List LaneDoc) (hready : Ready w name m db coll P L)
    (hstore : (w.mongo db coll).lanes = evalLaneQuery docs) :
    (∀ id, id ∈ featureIds (downloadLanes w name LaneType.AllLane) ↔
        id ∈ featureIds (downloadLanes w name LaneType.JunctionLane) ∨
          id ∈ featureIds (downloadLanes w name LaneType.RoadLane)) ∧
      (∀ d ∈ docs, ¬ ((parentIDFilter LaneType.JunctionLane).holds d.parent_id = true ∧
          (parentIDFilter LaneType.RoadLane).holds d.parent_id = true)) ∧
      ((docs.map LaneDoc.id).Nodup →
        ∀ id, ¬ (id ∈ featureIds (downloadLanes w name LaneType.JunctionLane) ∧
          id ∈ featureIds (downloadLanes w name LaneType.RoadLane))) := by
  have hall := featureIds_store w name LaneType.AllLane m db coll P L docs hready hstore
  have hjun := featureIds_store w name LaneType.JunctionLane m db coll P L docs hready hstore
  have hroad := featureIds_store w name LaneType.RoadLane m db coll P L docs hready hstore
  rw [hall, hjun, hroad]
  refine ⟨?_, fun d _ => (parent_kind_split d.parent_id).2, ?_⟩
  · intro id
    simp only [List.mem_map, List.mem_filter, Bool.and_eq_true]
    constructor
    · rintro ⟨d, ⟨hd, hp, hb⟩, hid⟩
      rcases (parent_kind_split d.parent_id).1.1 hp with h | h
      · exact Or.inl ⟨d, ⟨hd, h, hb⟩, hid⟩
      · exact Or.inr ⟨d, ⟨hd, h, hb⟩, hid⟩
    · rintro (⟨d, ⟨hd, hp, hb⟩, hid⟩ | ⟨d, ⟨hd, hp, hb⟩, hid⟩)
      · exact ⟨d, ⟨hd, (parent_kind_split d.parent_id).1.2 (Or.inl hp), hb⟩, hid⟩
      · exact ⟨d, ⟨hd, (parent_kind_split d.parent_id).1.2 (Or.inr hp), hb⟩, hid⟩
  · intro hnd id
    simp only [List.mem_map, List.mem_filter, Bool.and_eq_true]
    rintro ⟨⟨d1, ⟨hd1, hp1, _⟩, hid1⟩, ⟨d2, ⟨hd2, hp2, _⟩, hid2⟩⟩
    have heq : d1 = d2 := List.inj_on_of_nodup_map hnd hd1 hd2 (hid1.trans hid2.symm)
    subst heq
    exact (parent_kind_split d1.parent_id).2 ⟨hp1, hp2⟩

theorem lane_kind_partition_witness :
    Ready (worldOf sampleDocs) "sim" sampleMeta "db" "map" swapAxes swapAxes ∧
      ((worldOf sampleDocs).mongo "db" "map").lanes = evalLaneQuery sampleDocs ∧
      (sampleDocs.map LaneDoc.id).Nodup ∧
      featureIds (downloadLanes (worldOf sampleDocs) "sim" LaneType.AllLane) = [1, 2] ∧
      featureIds (downloadLanes (worldOf sampleDocs) "sim" LaneType.JunctionLane) = [2] ∧
      featureIds (downloadLanes (worldOf sampleDocs) "sim" LaneType.RoadLane) = [1] ∧
      ∀ id, ¬ (id ∈ featureIds (downloadLanes (worldOf sampleDocs) "sim"
            LaneType.JunctionLane) ∧
          id ∈ featureIds (downloadLanes (worldOf sampleDocs) "sim" LaneType.RoadLane)) :=
  ⟨ready_worldOf sampleDocs "sim", rfl, by decide, by decide, by decide, by decide,
    (lane_kind_partition (worldOf sampleDocs) "sim" sampleMeta "db" "map" swapAxes swapAxes
      sampleDocs (ready_worldOf sampleDocs "sim") rfl).2.2 (by decide)⟩

/-! ## The lane filter grows with the box -/

theorem inMicroscopic_mono (min1 max1 min2 max2 : Coord)
    (hminX : min2.X ≤ min1.X) (hminY : min2.Y ≤ min1.Y)
    (hmaxX : max1.X ≤ max2.X) (hmaxY : max1.Y ≤ max2.Y) (n : mapNode)
    (h : inMicroscopic min1 max1 n = true) : inMicroscopic min2 max2 n = true := by
  simp only [inMicroscopic, Bool.and_eq_true, decide_eq_true_eq] at h ⊢
  obtain ⟨⟨⟨h1, h2⟩, h3⟩, h4⟩ := h
  exact ⟨⟨⟨le_trans hminX h1, le_trans h2 hmaxX⟩, le_trans hminY h3⟩, le_trans h4 hmaxY⟩

/-- Claim C11: when the box `(min1, max1)` lies inside the box `(min2, max2)`, every
lane that passes the point test of `downloadLanes` for the inner box passes it for the
outer box, every lane document the store selects for the inner box it selects for the
outer box, and for every list of fetched lanes the features made for the inner box are
a sublist of those made for the outer box: shrinking the box adds no feature and
growing it removes none. -/
theorem lane_filter_monotone (min1 max1 min2 max2 : Coord)
    (hminX : min2.X ≤ min1.X) (hminY : min2.Y ≤ min1.Y)
    (hmaxX : max1.X ≤ max2.X) (hmaxY : max1.Y ≤ max2.Y) :
    (∀ l : mapLane, included min1 max1 l = true → included min2 max2 l = true) ∧
      (∀ (f : ParentFilter) (d : LaneDoc),
        (LaneQuery.inBox f min1.X max1.X min1.Y max1.Y).holds d = true →
        (LaneQuery.inBox f min2.X max2.X min2.Y max2.Y).holds d = true) ∧
      ∀ (P : Projector) (lanes : List mapLane),
        (FilterMap (laneCallback min1 max1 P) lanes).isSome = true ∧
        (FilterMap (laneCallback min2 max2 P) lanes).isSome = true ∧
        ((FilterMap (laneCallback min1 max1 P) lanes).getD []).Sublist
          ((FilterMap (laneCallback min2 max2 P) lanes).getD []) := by
  have hinc : ∀ l : mapLane, included min1 max1 l = true → included min2 max2 l = true := by
    intro l hl
    simp only [included, List.any_eq_true] at hl ⊢
    obtain ⟨n, hn, hin⟩ := hl
    exact ⟨n, hn, inMicroscopic_mono min1 max1 min2 max2 hminX hminY hmaxX hmaxY n hin⟩
  refine ⟨hinc, ?_, ?_⟩
  · intro f d hd
    have h1 : (f.holds d.parent_id && included min1 max1 d.project) = true := hd
    show (f.holds d.parent_id && included min2 max2 d.project) = true
    rw [Bool.and_eq_true] at h1 ⊢
    exact ⟨h1.1, hinc _ h1.2⟩
  intro P lanes
  rw [FilterMap_filter _ (included min1 max1) (fun l => laneFeature P l.ID l) _
      (fun x _ => laneCallback_eq _ _ P x),
    FilterMap_filter _ (included min2 max2) (fun l => laneFeature P l.ID l) _
      (fun x _ => laneCallback_eq _ _ P x)]
  refine ⟨rfl, rfl, ?_⟩
  simp only [Option.getD_some]
  apply List.Sublist.map
  induction lanes with
  | nil => exact List.Sublist.refl _
  | cons l ls ih =>
    rw [List.filter_cons, List.filter_cons]
    by_cases h1 : included min1 max1 l = true
    · rw [if_pos h1, if_pos (hinc l h1)]
      exact ih.cons₂ l
    · rw [if_neg h1]
      by_cases h2 : included min2 max2 l = true
      · rw [if_pos h2]
        exact ih.cons l
      · rw [if_neg h2]
        exact ih

theorem lane_filter_monotone_witness :
    (0 : ℚ) ≤ 1 ∧ (0 : ℚ) ≤ 1 ∧ (3 : ℚ) ≤ 10 ∧ (3 : ℚ) ≤ 10 ∧
      ∀ l : mapLane, included { X := 1, Y := 1 } { X := 3, Y := 3 } l = true →
        included { X := 0, Y := 0 } { X := 10, Y := 10 } l = true :=
  ⟨by norm_num, by norm_num, by norm_num, by norm_num,
    (lane_filter_monotone { X := 1, Y := 1 } { X := 3, Y := 3 } { X := 0, Y := 0 }
      { X := 10, Y := 10 } (by norm_num) (by norm_num) (by norm_num) (by norm_num)).1⟩

/-! ## GetCarsByName: the metadata check -/

/-- The function `QueryMetadata` gives no row together with an error. -/
theorem QueryMetadata_error_nil (pg : Option String → MetaRows) (name : Option String)
    (h : (QueryMetadata pg name).2 ≠ none) : (QueryMetadata pg name).1 = [] := by
  unfold QueryMetadata at h ⊢
  simp only at h ⊢
  by_cases hq : (pg name).queryErr.isSome = true
  · rw [if_pos hq]
  · rw [if_neg hq] at h ⊢
    rcases hs : scanAll (pg name).scans [] with ⟨all, _ | e⟩
    · rw [hs] at h
      simp only at h ⊢
      by_cases hr : (pg name).rowsErr.isSome = true
      · rw [if_pos hr]
      · rw [if_neg hr] at h ⊢
        by_cases hd : (name.isSome && decide (all.length > 1)) = true
        · rw [if_pos hd]
        · rw [if_neg hd] at h
          exact absurd rfl h
    · rfl

/-- Whenever the metadata lookup gives no row, with or without an error, the run of
`GetCarsByName` reaches `metas[0]` and panics there. -/
theorem GetCarsByName_no_row (w : World) (t : Tables) (name : String) (s : StepCoordinate)
    (h : (w.QueryMetadata name).1 = []) :
    GetCarsByName w t name s =
      Outcome.panicked
        (match (w.QueryMetadata name).2 with
         | some e => [(500, { Error := e, Data := none })]
         | none => [(404, { Error := "not found", Data := none })]) := by
  unfold GetCarsByName
  simp only [h]
  cases (w.QueryMetadata name).2 <;> rfl

/-- Claim C12, at its two failing inputs: with a metadata table without rows
`GetCarsByName` writes the 404 response and then panics on `metas[0]`, and with a
failing metadata query it writes the 500 response and then panics on `metas[0]`;
`GetAoiByName`, which has the `return` statements, ends after the same response. -/
theorem cars_handler_indexes_missing_metadata :
    GetCarsByName (worldFromPg noRowsPg (collectionOf [])) noTables "sim" sampleParams =
        Outcome.panicked [(404, { Error := "not found", Data := none })] ∧
      GetCarsByName (worldFromPg brokenPg (collectionOf [])) noTables "sim" sampleParams =
        Outcome.panicked [(500, { Error := "connection refused", Data := none })] ∧
      GetAoiByName (worldFromPg noRowsPg (collectionOf [])) "sim" =
        Outcome.returned [(404, { Error := "not found", Data := none })] () ∧
      GetAoiByName (worldFromPg brokenPg (collectionOf [])) "sim" =
        Outcome.returned [(500, { Error := "connection refused", Data := none })] () := by
  decide

/-! ## downloadLanes: the missing header -/

/-- Whenever the header lookup fails, `downloadLanes` hands the nil error of the
metadata lookup to `util.NewErrorResponse` and panics before any response is written. -/
theorem downloadLanes_header_error (w : World) (name : String) (typ : LaneType)
    (m : Metadata) (db coll : String) (h1 : (w.QueryMetadata name).2 = none)
    (h2 : (w.QueryMetadata name).1.head? = some m) (h3 : Split m.Map '.' = [db, coll])
    (h4 : (w.mongo db coll).headerErr ≠ none) :
    downloadLanes w name typ = Outcome.panicked [] := by
  unfold downloadLanes
  simp only [h1, Option.isSome_none, Bool.false_eq_true, if_false]
  cases hm : (w.QueryMetadata name).1 with
  | nil =>
    rw [hm] at h2
    cases h2
  | cons m0 rest =>
    rw [hm] at h2
    simp only [List.head?_cons, Option.some.injEq] at h2
    subst h2
    have h5 : (w.mongo db coll).headerErr.isSome = true := by
      cases h : (w.mongo db coll).headerErr with
      | none => exact absurd h h4
      | some e => rfl
    simp only [h3, h5, if_true]
    rfl

/-- Claim C13, at its failing input (a found simulation whose map has no header
record): `downloadLanes` panics inside `util.NewErrorResponse` and writes no response,
while `GetRoadlaneByName` and `GetAoiByName` answer 500 with the error of the header
lookup. -/
theorem lanes_header_error_is_nil_dereference :
    downloadLanes (worldFromPg (oneRowPg sampleMeta) headerlessCollection) "sim"
        LaneType.AllLane = Outcome.panicked [] ∧
      GetRoadlaneByName (worldFromPg (oneRowPg sampleMeta) headerlessCollection) "sim" =
        Outcome.returned [(500, { Error := "mongo: no documents in result", Data := none })] () ∧
      GetAoiByName (worldFromPg (oneRowPg sampleMeta) headerlessCollection) "sim" =
        Outcome.returned [(500, { Error := "mongo: no documents in result", Data := none })] () := by
  decide

/-! ## GetRoadlaneByName: the missing threshold -/

/-- Claim C15: when the metadata lookup gives a row without minimum-speed threshold,
`GetRoadlaneByName` answers 400 "no road status information", whatever the map
reference of the row, the store and the projection library are; the answer differs
from the 404 "not found" given when the lookup gives no row; it carries no feature. -/
theorem no_threshold_is_bad_request (w : World) (name : String) (m : Metadata)
    (h1 : (w.QueryMetadata name).2 = none) (h2 : (w.QueryMetadata name).1.head? = some m)
    (h3 : m.RoadStatusVMin = none) :
    GetRoadlaneByName w name =
        Outcome.returned [(400, { Error := "no road status information", Data := none })] () ∧
      (∀ (w0 : World) (name0 : String), w0.QueryMetadata name0 = ([], none) →
        GetRoadlaneByName w0 name0 =
          Outcome.returned [(404, { Error := "not found", Data := none })] ()) ∧
      (Outcome.returned [(400, { Error := "no road status information", Data := none })] () :
          Outcome (List Feature) Unit) ≠
        Outcome.returned [(404, { Error := "not found", Data := none })] () := by
  refine ⟨?_, ?_, by decide⟩
  · unfold GetRoadlaneByName
    simp only [h1, Option.isSome_none, Bool.false_eq_true, if_false]
    cases hm : (w.QueryMetadata name).1 with
    | nil =>
      rw [hm] at h2
      cases h2
    | cons m0 rest =>
      rw [hm] at h2
      simp only [List.head?_cons, Option.some.injEq] at h2
      subst h2
      simp only [h3]
      rfl
  · intro w0 name0 h0
    unfold GetRoadlaneByName
    simp only [h0, Option.isSome_none, Bool.false_eq_true, if_false]
    rfl

theorem no_threshold_is_bad_request_witness :
    ((worldFromPg (oneRowPg noDotMeta) headerlessCollection).QueryMetadata "sim").2 = none ∧
      ((worldFromPg (oneRowPg noDotMeta) headerlessCollection).QueryMetadata "sim").1.head? =
        some noDotMeta ∧
      noDotMeta.RoadStatusVMin = none ∧
      GetRoadlaneByName (worldFromPg (oneRowPg noDotMeta) headerlessCollection) "sim" =
        Outcome.returned [(400, { Error := "no road status information", Data := none })] () :=
  ⟨rfl, rfl, rfl,
    (no_threshold_is_bad_request (worldFromPg (oneRowPg noDotMeta) headerlessCollection) "sim"
      noDotMeta rfl rfl rfl).1⟩


/-! ## The map reference -/

theorem length_splitChars (sep : Char) (cs : List Char) :
    (splitChars sep cs).length = cs.count sep + 1 := by
  induction cs with
  | nil => rfl
  | cons c cs ih =>
    unfold splitChars
    by_cases h : c = sep
    · rw [if_pos h, List.length_cons, ih, h, List.count_cons_self]
    · rw [if_neg h, List.count_cons_of_ne (fun e => h e.symm)]
      cases hs : splitChars sep cs with
      | nil =>
        rw [hs] at ih
        simp at ih
      | cons p ps =>
        rw [hs] at ih
        simpa using ih

/-- The number of parts `strings.Split` gives is the number of separators plus one. -/
theorem length_Split (s : String) (sep : Char) :
    (Split s sep).length = s.toList.count sep + 1 := by
  rw [Split, List.length_map, length_splitChars]

theorem split_two (l : List String) (h : l.length = 2) : ∃ db coll, l = [db, coll] := by
  rcases l with _ | ⟨a, _ | ⟨b, _ | ⟨c, r⟩⟩⟩
  · cases h
  · cases h
  · exact ⟨a, b, rfl⟩
  · simp at h

/-- Claim C14, refuted as stated: a metadata row whose map reference `nodots` does not
split into two parts and whose minimum-speed threshold is absent makes
`GetRoadlaneByName` answer 400 "no road status information", not "bad map path
format". -/
theorem malformed_reference_without_threshold :
    (Split noDotMeta.Map '.').length ≠ 2 ∧
      GetRoadlaneByName (worldFromPg (oneRowPg noDotMeta) (collectionOf [])) "sim" =
        Outcome.returned [(400, { Error := "no road status information", Data := none })] () ∧
      GetRoadlaneByName (worldFromPg (oneRowPg noDotMeta) (collectionOf [])) "sim" ≠
        Outcome.returned [badMapResponse] () := by
  decide

/-- Claim C14, amended: for a found simulation, the map reference splits into exactly
two parts if and only if it contains exactly one `.`. When it does not, `downloadLanes`
and `GetAoiByName`, and `GetRoadlaneByName` when the row has a minimum-speed threshold,
answer 500 "bad map path format" and return no feature, whatever the store and the
projection library are. When it does, the same handlers over a store and a projection
library that do not fail answer with success, so the reference is not rejected;
`db.collection` splits into `db` and `collection`. -/
theorem bad_map_reference (w : World) (name : String) (m : Metadata)
    (h1 : (w.QueryMetadata name).2 = none) (h2 : (w.QueryMetadata name).1.head? = some m) :
    ((Split m.Map '.').length = 2 ↔ m.Map.toList.count '.' = 1) ∧
      ((Split m.Map '.').length ≠ 2 →
        (∀ typ, downloadLanes w name typ = Outcome.returned [badMapResponse] ([], true)) ∧
          GetAoiByName w name = Outcome.returned [badMapResponse] () ∧
          (m.RoadStatusVMin ≠ none →
            GetRoadlaneByName w name = Outcome.returned [badMapResponse] ())) ∧
      ((Split m.Map '.').length = 2 →
        (∀ typ, downloadLanes (healthyWorld w) name typ = Outcome.returned [] ([], false)) ∧
          GetAoiByName (healthyWorld w) name =
            Outcome.returned [(200, NewResponse [])] () ∧
          (m.RoadStatusVMin ≠ none →
            GetRoadlaneByName (healthyWorld w) name =
              Outcome.returned [(200, NewResponse [])] ())) ∧
      Split "db.collection" '.' = ["db", "collection"] := by
  have hmetas : ∃ rest, (w.QueryMetadata name).1 = m :: rest := by
    cases hm : (w.QueryMetadata name).1 with
    | nil =>
      rw [hm] at h2
      cases h2
    | cons m0 rest =>
      rw [hm] at h2
      simp only [List.head?_cons, Option.some.injEq] at h2
      exact ⟨rest, by rw [h2]⟩
  obtain ⟨rest, hm⟩ := hmetas
  refine ⟨?_, ?_, ?_, by decide⟩
  · rw [length_Split]
    omega
  · intro hbad
    refine ⟨?_, ?_, ?_⟩
    · intro typ
      unfold downloadLanes
      simp only [h1, hm, Option.isSome_none, Bool.false_eq_true, if_false]
      rcases hs : Split m.Map '.' with _ | ⟨a, _ | ⟨b, _ | ⟨c, r⟩⟩⟩
      · rfl
      · rfl
      · rw [hs] at hbad
        exact absurd rfl hbad
      · rfl
    · unfold GetAoiByName
      simp only [h1, hm, Option.isSome_none, Bool.false_eq_true, if_false]
      rcases hs : Split m.Map '.' with _ | ⟨a, _ | ⟨b, _ | ⟨c, r⟩⟩⟩
      · rfl
      · rfl
      · rw [hs] at hbad
        exact absurd rfl hbad
      · rfl
    · intro hv
      unfold GetRoadlaneByName
      simp only [h1, hm, Option.isSome_none, Bool.false_eq_true, if_false]
      cases hvm : m.RoadStatusVMin with
      | none => exact absurd hvm hv
      | some v =>
        simp only
        rcases hs : Split m.Map '.' with _ | ⟨a, _ | ⟨b, _ | ⟨c, r⟩⟩⟩
        · rfl
        · rfl
        · rw [hs] at hbad
          exact absurd rfl hbad
        · rfl
  · intro hgood
    obtain ⟨db, coll, hs⟩ := split_two _ hgood
    refine ⟨?_, ?_, ?_⟩
    · intro typ
      have hready : Ready (healthyWorld w) name m db coll swapAxes swapAxes :=
        ⟨h1, h2, hs, rfl, rfl, rfl, rfl⟩
      have hfetched : Fetched (healthyWorld w) db coll typ m swapAxes := ⟨rfl, rfl⟩
      rw [downloadLanes_success (healthyWorld w) name typ m db coll swapAxes swapAxes hready
        hfetched]
      rfl
    · unfold GetAoiByName
      have h1b : ((healthyWorld w).QueryMetadata name).2 = none := h1
      have hmb : ((healthyWorld w).QueryMetadata name).1 = m :: rest := hm
      simp only [h1b, hmb, hs, Option.isSome_none, Bool.false_eq_true, if_false]
      rfl
    · intro hv
      unfold GetRoadlaneByName
      have h1b : ((healthyWorld w).QueryMetadata name).2 = none := h1
      have hmb : ((healthyWorld w).QueryMetadata name).1 = m :: rest := hm
      simp only [h1b, hmb, Option.isSome_none, Bool.false_eq_true, if_false]
      cases hvm : m.RoadStatusVMin with
      | none => exact absurd hvm hv
      | some v =>
        simp only [hs]
        rfl

theorem bad_map_reference_witness :
    ((worldFromPg (oneRowPg twoDotMeta) headerlessCollection).QueryMetadata "sim").2 = none ∧
      ((worldFromPg (oneRowPg twoDotMeta) headerlessCollection).QueryMetadata "sim").1.head? =
        some twoDotMeta ∧
      (Split twoDotMeta.Map '.').length ≠ 2 ∧
      twoDotMeta.RoadStatusVMin ≠ none ∧
      (∀ typ, downloadLanes (worldFromPg (oneRowPg twoDotMeta) headerlessCollection) "sim" typ =
        Outcome.returned [badMapResponse] ([], true)) ∧
      GetAoiByName (worldFromPg (oneRowPg twoDotMeta) headerlessCollection) "sim" =
        Outcome.returned [badMapResponse] () ∧
      GetRoadlaneByName (worldFromPg (oneRowPg twoDotMeta) headerlessCollection) "sim" =
        Outcome.returned [badMapResponse] () :=
  ⟨rfl, rfl, by decide, by decide,
    ((bad_map_reference (worldFromPg (oneRowPg twoDotMeta) headerlessCollection) "sim"
      twoDotMeta rfl rfl).2.1 (by decide)).1,
    ((bad_map_reference (worldFromPg (oneRowPg twoDotMeta) headerlessCollection) "sim"
      twoDotMeta rfl rfl).2.1 (by decide)).2.1,
    ((bad_map_reference (worldFromPg (oneRowPg twoDotMeta) headerlessCollection) "sim"
      twoDotMeta rfl rfl).2.1 (by decide)).2.2 (by decide)⟩


/-! ## float64: rounding to the nearest value -/

/-- The value of `math.Round`: an integer nearest to the argument, and on a tie the one
away from zero. -/
theorem Round_spec (x : ℚ) :
    ∃ k : Int, Round x = (k : ℚ) ∧ |x - k| ≤ 1 / 2 ∧ (|x - k| = 1 / 2 → |x| < |(k : ℚ)|) := by
  unfold Round
  by_cases hx : x < 0
  · rw [if_pos hx]
    have h1 := Int.floor_le (-x + 1 / 2)
    have h2 := Int.lt_floor_add_one (-x + 1 / 2)
    refine ⟨-⌊-x + 1 / 2⌋, by push_cast; rfl, ?_, ?_⟩
    · rw [abs_le]
      push_cast
      constructor <;> linarith
    · intro h
      push_cast at h ⊢
      rw [abs_of_neg hx, abs_neg]
      have h3 : x - -(⌊-x + 1 / 2⌋ : ℚ) = 1 / 2 := by
        rcases (abs_eq (by norm_num : (0 : ℚ) ≤ 1 / 2)).1 h with h4 | h4
        · exact h4
        · linarith
      have h5 : (0 : ℚ) < (⌊-x + 1 / 2⌋ : ℚ) := by linarith
      rw [abs_of_pos h5]
      linarith
  · rw [if_neg hx]
    push_neg at hx
    have h1 := Int.floor_le (x + 1 / 2)
    have h2 := Int.lt_floor_add_one (x + 1 / 2)
    refine ⟨⌊x + 1 / 2⌋, rfl, ?_, ?_⟩
    · rw [abs_le]
      constructor <;> linarith
    · intro h
      rw [abs_of_nonneg hx]
      have h3 : x - (⌊x + 1 / 2⌋ : ℚ) = -(1 / 2) := by
        rcases (abs_eq (by norm_num : (0 : ℚ) ≤ 1 / 2)).1 h with h4 | h4
        · linarith
        · exact h4
      have h5 : (0 : ℚ) < (⌊x + 1 / 2⌋ : ℚ) := by linarith
      rw [abs_of_pos h5]
      linarith

theorem roundHalfEven_spec (x : ℚ) : |x - (roundHalfEven x : ℚ)| ≤ 1 / 2 := by
  have h1 := Int.floor_le x
  have h2 := Int.lt_floor_add_one x
  unfold roundHalfEven
  rw [abs_le]
  split
  · constructor <;> linarith
  · split
    · push_cast
      constructor <;> linarith
    · split
      · constructor <;> linarith
      · push_cast
        constructor <;> linarith

theorem roundHalfEven_eq_of_lt (x : ℚ) (k : Int) (h : |x - (k : ℚ)| < 1 / 2) :
    roundHalfEven x = k := by
  have h1 := Int.floor_le x
  have h2 := Int.lt_floor_add_one x
  rw [abs_lt] at h
  obtain ⟨h3, h4⟩ := h
  have hk : k = ⌊x⌋ ∨ k = ⌊x⌋ + 1 := by
    have a1 : ((⌊x⌋ : Int) : ℚ) < (k : ℚ) + 1 := by linarith
    have a2 : (k : ℚ) < ((⌊x⌋ : Int) : ℚ) + 2 := by linarith
    have b1 : ⌊x⌋ < k + 1 := by exact_mod_cast a1
    have b2 : k < ⌊x⌋ + 2 := by exact_mod_cast a2
    omega
  unfold roundHalfEven
  rcases hk with hk | hk
  · have hc : (k : ℚ) = ((⌊x⌋ : Int) : ℚ) := by rw [hk]
    rw [if_pos (by linarith)]
    exact hk.symm
  · have hc : (k : ℚ) = ((⌊x⌋ : Int) : ℚ) + 1 := by rw [hk]; push_cast; rfl
    rw [if_neg (by linarith), if_pos (by linarith)]
    exact hk.symm

theorem roundHalfEven_intCast (k : Int) : roundHalfEven (k : ℚ) = k :=
  roundHalfEven_eq_of_lt _ k (by simp)

theorem two_zpow_pos (e : Int) : (0 : ℚ) < (2 : ℚ) ^ e :=
  zpow_pos (by norm_num) e

theorem ulpExp_eq (x : ℚ) (L : Int) (h1 : (2 : ℚ) ^ L ≤ |x|) (h2 : |x| < (2 : ℚ) ^ (L + 1))
    (h3 : -1022 ≤ L) : ulpExp x = L - 52 := by
  have hpos : 0 < |x| := lt_of_lt_of_le (two_zpow_pos L) h1
  have ha : L ≤ Int.log 2 |x| := (Int.zpow_le_iff_le_log (by norm_num) hpos).1 (by exact_mod_cast h1)
  have hb : Int.log 2 |x| < L + 1 :=
    (Int.lt_zpow_iff_log_lt (by norm_num) hpos).1 (by exact_mod_cast h2)
  unfold ulpExp
  have hL : Int.log 2 |x| = L := by omega
  rw [hL]
  omega

/-- The `float64` nearest to a positive `x` in the normal range, from the binary
exponent `L` of `x` and the integer `k` nearest to `x / 2^(L-52)`. -/
theorem toF64_pos (x : ℚ) (L k : Int) (hx : 0 < x) (h1 : (2 : ℚ) ^ L ≤ x)
    (h2 : x < (2 : ℚ) ^ (L + 1)) (h3 : -1022 ≤ L)
    (hk : |x / (2 : ℚ) ^ (L - 52) - (k : ℚ)| < 1 / 2)
    (hfin : (k : ℚ) * (2 : ℚ) ^ (L - 52) < (2 : ℚ) ^ (1024 : Nat)) :
    toF64 x = F64.finite ((k : ℚ) * (2 : ℚ) ^ (L - 52)) := by
  have habs : |x| = x := abs_of_pos hx
  have he : ulpExp x = L - 52 := ulpExp_eq x L (by rw [habs]; exact h1) (by rw [habs]; exact h2) h3
  unfold toF64
  simp only [he, habs, roundHalfEven_eq_of_lt _ k hk]
  rw [if_neg (not_le.2 hfin), if_neg (not_lt.2 (le_of_lt hx))]

/-- The `float64` nearest to a negative `x` in the normal range. -/
theorem toF64_neg (x : ℚ) (L k : Int) (hx : x < 0) (h1 : (2 : ℚ) ^ L ≤ -x)
    (h2 : -x < (2 : ℚ) ^ (L + 1)) (h3 : -1022 ≤ L)
    (hk : |-x / (2 : ℚ) ^ (L - 52) - (k : ℚ)| < 1 / 2)
    (hfin : (k : ℚ) * (2 : ℚ) ^ (L - 52) < (2 : ℚ) ^ (1024 : Nat)) :
    toF64 x = F64.finite (-((k : ℚ) * (2 : ℚ) ^ (L - 52))) := by
  have habs : |x| = -x := abs_of_neg hx
  have he : ulpExp x = L - 52 := ulpExp_eq x L (by rw [habs]; exact h1) (by rw [habs]; exact h2) h3
  unfold toF64
  simp only [he, habs, roundHalfEven_eq_of_lt _ k hk]
  rw [if_neg (not_le.2 hfin), if_pos hx]

theorem toF64_zero : toF64 0 = F64.finite 0 := by
  unfold toF64
  simp [roundHalfEven]

theorem Round_eq_of_lt (z : ℚ) (k : Int) (h : |z - (k : ℚ)| < 1 / 2) : Round z = (k : ℚ) := by
  rw [abs_lt] at h
  obtain ⟨h1, h2⟩ := h
  unfold Round
  split
  · have hf : ⌊-z + 1 / 2⌋ = -k := by
      rw [Int.floor_eq_iff]
      push_cast
      constructor <;> linarith
    rw [hf]
    push_cast
    ring
  · have hf : ⌊z + 1 / 2⌋ = k := by
      rw [Int.floor_eq_iff]
      constructor <;> linarith
    rw [hf]

theorem scaled_round_error (a : ℚ) (e : Int) (r : Int) (h1 : (2 : ℚ) ^ (e + 52) ≤ a)
    (hr : |a / (2 : ℚ) ^ e - (r : ℚ)| ≤ 1 / 2) :
    |(r : ℚ) * (2 : ℚ) ^ e - a| ≤ a / 2 ^ (53 : Nat) := by
  have hepos := two_zpow_pos e
  have hsplit : (2 : ℚ) ^ (e + 52) = (2 : ℚ) ^ e * 2 ^ (52 : Nat) := by
    rw [show e + 52 = e + ((52 : Nat) : Int) by push_cast; ring,
      zpow_add₀ (by norm_num : (2 : ℚ) ≠ 0), zpow_natCast]
  have hrw : (r : ℚ) * (2 : ℚ) ^ e - a = ((r : ℚ) - a / (2 : ℚ) ^ e) * (2 : ℚ) ^ e := by
    field_simp
  rw [hrw, abs_mul, abs_of_pos hepos, abs_sub_comm]
  have hbound : (2 : ℚ) ^ e ≤ a / 2 ^ (52 : Nat) := by
    rw [le_div_iff₀ (by positivity), ← hsplit]
    exact h1
  calc |a / (2 : ℚ) ^ e - (r : ℚ)| * (2 : ℚ) ^ e
      ≤ 1 / 2 * (a / 2 ^ (52 : Nat)) :=
        mul_le_mul hr hbound (le_of_lt hepos) (by norm_num)
    _ = a / 2 ^ (53 : Nat) := by ring

/-- In the normal range the `float64` nearest to `x` is finite and differs from `x` by
at most `|x| / 2^53`. -/
theorem toF64_error (x : ℚ) (hlo : (2 : ℚ) ^ (-1022 : Int) ≤ |x|)
    (hhi : |x| < (2 : ℚ) ^ (1023 : Nat)) :
    ∃ y, toF64 x = F64.finite y ∧ |y - x| ≤ |x| / 2 ^ (53 : Nat) := by
  have hpos : 0 < |x| := lt_of_lt_of_le (two_zpow_pos _) hlo
  have h1 : (2 : ℚ) ^ Int.log 2 |x| ≤ |x| := by
    exact_mod_cast Int.zpow_log_le_self (by norm_num : 1 < 2) hpos
  have h2 : |x| < (2 : ℚ) ^ (Int.log 2 |x| + 1) := by
    exact_mod_cast Int.lt_zpow_succ_log_self (by norm_num : 1 < 2) |x|
  have h3 : -1022 ≤ Int.log 2 |x| :=
    (Int.zpow_le_iff_le_log (by norm_num) hpos).1 (by exact_mod_cast hlo)
  have he : ulpExp x = Int.log 2 |x| - 52 := ulpExp_eq x _ h1 h2 h3
  have hdist := scaled_round_error |x| (Int.log 2 |x| - 52)
    (roundHalfEven (|x| / (2 : ℚ) ^ (Int.log 2 |x| - 52)))
    (by rw [sub_add_cancel]; exact h1) (roundHalfEven_spec _)
  have hfin : (roundHalfEven (|x| / (2 : ℚ) ^ (Int.log 2 |x| - 52)) : ℚ) *
      (2 : ℚ) ^ (Int.log 2 |x| - 52) < (2 : ℚ) ^ (1024 : Nat) := by
    have hb := (abs_le.1 hdist).2
    have hq : |x| / 2 ^ (53 : Nat) ≤ |x| := div_le_self (le_of_lt hpos) (by norm_num)
    have hp : (2 : ℚ) ^ (1024 : Nat) = (2 : ℚ) ^ (1023 : Nat) * 2 := by rw [← pow_succ]
    rw [hp]
    linarith
  unfold toF64
  simp only [he]
  rw [if_neg (not_le.2 hfin)]
  refine ⟨_, rfl, ?_⟩
  by_cases hx : x < 0
  · rw [if_pos hx]
    have habs : |x| = -x := abs_of_neg hx
    rw [habs] at hdist ⊢
    rw [← abs_neg]
    have hrw : ∀ t : ℚ, -(-t - x) = t - -x := fun t => by ring
    rw [hrw]
    exact hdist
  · rw [if_neg hx]
    have habs : |x| = x := abs_of_nonneg (not_lt.1 hx)
    rw [habs] at hdist ⊢
    exact hdist

theorem five_pow_lt (n : Nat) (hn : n ≤ 22) : (5 : ℚ) ^ n < (2 : ℚ) ^ (53 : Nat) := by
  calc (5 : ℚ) ^ n ≤ (5 : ℚ) ^ (22 : Nat) := pow_le_pow_right₀ (by norm_num) hn
    _ < (2 : ℚ) ^ (53 : Nat) := by norm_num

theorem two_pow_lt_max (a : Nat) (ha : a ≤ 1024) : (2 : ℚ) ^ a ≤ (2 : ℚ) ^ (1024 : Nat) :=
  pow_le_pow_right₀ (by norm_num) ha

/-- A power of ten up to `10^22` is a `float64`: rounding leaves it as it is. -/
theorem toF64_ten_pow (n : Nat) (hn : n ≤ 22) :
    toF64 ((10 : ℚ) ^ n) = F64.finite ((10 : ℚ) ^ n) := by
  have hx : (0 : ℚ) < (10 : ℚ) ^ n := by positivity
  have hone : (1 : ℚ) ≤ (10 : ℚ) ^ n := one_le_pow₀ (by norm_num)
  have hsplit : (10 : ℚ) ^ n = (5 : ℚ) ^ n * (2 : ℚ) ^ n := by
    rw [← mul_pow]
    norm_num
  have h1 : (2 : ℚ) ^ Int.log 2 ((10 : ℚ) ^ n) ≤ (10 : ℚ) ^ n := by
    exact_mod_cast Int.zpow_log_le_self (by norm_num : 1 < 2) hx
  have h2 : (10 : ℚ) ^ n < (2 : ℚ) ^ (Int.log 2 ((10 : ℚ) ^ n) + 1) := by
    exact_mod_cast Int.lt_zpow_succ_log_self (by norm_num : 1 < 2) ((10 : ℚ) ^ n)
  have h3 : 0 ≤ Int.log 2 ((10 : ℚ) ^ n) :=
    (Int.zpow_le_iff_le_log (by norm_num) hx).1 (by simpa using hone)
  have h4 : Int.log 2 ((10 : ℚ) ^ n) < 53 + (n : Int) := by
    apply (Int.lt_zpow_iff_log_lt (by norm_num) hx).1
    have : ((2 : Nat) : ℚ) ^ (53 + (n : Int)) = (2 : ℚ) ^ (53 : Nat) * (2 : ℚ) ^ n := by
      rw [show (53 : Int) + (n : Int) = ((53 + n : Nat) : Int) by push_cast; ring,
        zpow_natCast, pow_add]
      norm_num
    rw [this, hsplit]
    exact mul_lt_mul_of_pos_right (five_pow_lt n hn) (by positivity)
  generalize Int.log 2 ((10 : ℚ) ^ n) = L at h1 h2 h3 h4
  obtain ⟨d, hd⟩ : ∃ d : Nat, L - 52 + (d : Int) = (n : Int) :=
    ⟨((n : Int) - (L - 52)).toNat, by omega⟩
  have hval : (((5 ^ n * 2 ^ d : Nat) : Int) : ℚ) * (2 : ℚ) ^ (L - 52) = (10 : ℚ) ^ n := by
    have hz : (2 : ℚ) ^ (n : Int) = (2 : ℚ) ^ (L - 52) * (2 : ℚ) ^ (d : Int) := by
      rw [← zpow_add₀ (by norm_num : (2 : ℚ) ≠ 0), hd]
    rw [zpow_natCast, zpow_natCast] at hz
    push_cast
    rw [hsplit, hz]
    ring
  have hk : |(10 : ℚ) ^ n / (2 : ℚ) ^ (L - 52) - (((5 ^ n * 2 ^ d : Nat) : Int) : ℚ)| <
      1 / 2 := by
    have : (10 : ℚ) ^ n / (2 : ℚ) ^ (L - 52) = (((5 ^ n * 2 ^ d : Nat) : Int) : ℚ) := by
      rw [div_eq_iff (ne_of_gt (two_zpow_pos _)), hval]
    rw [this, sub_self, abs_zero]
    norm_num
  have hfin : (((5 ^ n * 2 ^ d : Nat) : Int) : ℚ) * (2 : ℚ) ^ (L - 52) <
      (2 : ℚ) ^ (1024 : Nat) := by
    rw [hval]
    calc (10 : ℚ) ^ n ≤ (10 : ℚ) ^ (22 : Nat) := pow_le_pow_right₀ (by norm_num) hn
      _ < (2 : ℚ) ^ (74 : Nat) := by norm_num
      _ ≤ (2 : ℚ) ^ (1024 : Nat) := two_pow_lt_max 74 (by norm_num)
  rw [toF64_pos _ L _ hx h1 h2 (by omega) hk hfin, hval]

theorem Pow10_exact (p : Int) (h0 : 0 ≤ p) (h22 : p ≤ 22) :
    Pow10 p = F64.finite ((10 : ℚ) ^ p) := by
  obtain ⟨n, rfl⟩ := Int.eq_ofNat_of_zero_le h0
  unfold Pow10
  rw [zpow_natCast]
  exact toF64_ten_pow n (by omega)

/-! ## ToFixed -/

theorem tiny_le (a : ℚ) (h : (1 : ℚ) / (2 : ℚ) ^ (74 : Nat) ≤ a) :
    (2 : ℚ) ^ (-1022 : Int) ≤ a := by
  have h1 : (2 : ℚ) ^ (-1022 : Int) ≤ (2 : ℚ) ^ (-74 : Int) :=
    zpow_le_zpow_right₀ (by norm_num) (by norm_num)
  have h2 : (2 : ℚ) ^ (-74 : Int) = (1 : ℚ) / (2 : ℚ) ^ (74 : Nat) := by
    rw [zpow_neg, one_div]
    norm_cast
  exact le_trans h1 (by rw [h2]; exact h)

theorem lt_huge (a : ℚ) (h : a ≤ (2 : ℚ) ^ (52 : Nat)) : a < (2 : ℚ) ^ (1023 : Nat) := by
  have h1 : (2 : ℚ) ^ (52 : Nat) < (2 : ℚ) ^ (1023 : Nat) :=
    pow_lt_pow_right₀ (by norm_num) (by norm_num)
  linarith

theorem ToFixed_of_product (q : ℚ) (p : Int) (h0 : 0 ≤ p) (h22 : p ≤ 22) (y : ℚ)
    (hy : toF64 (q * (10 : ℚ) ^ p) = F64.finite y) :
    ToFixed (F64.finite q) p = toF64 (Round y / (10 : ℚ) ^ p) := by
  have hne : (10 : ℚ) ^ p ≠ 0 := ne_of_gt (zpow_pos (by norm_num) p)
  unfold ToFixed
  simp only [Pow10_exact p h0 h22, F64.mul, hy, F64.Round, F64.div, hne, if_false]

theorem ToFixed_of_overflow (q : ℚ) (p : Int) (h0 : 0 ≤ p) (h22 : p ≤ 22) (s : Bool)
    (hy : toF64 (q * (10 : ℚ) ^ p) = F64.inf s) :
    ToFixed (F64.finite q) p = F64.inf s := by
  have hpos : (0 : ℚ) < (10 : ℚ) ^ p := zpow_pos (by norm_num) p
  unfold ToFixed
  simp only [Pow10_exact p h0 h22, F64.mul, hy, F64.Round, F64.div, not_lt.2 (le_of_lt hpos),
    decide_False, Bool.xor_false]

/-- Rounding again leaves `k / 10^p` rounded to `float64` as it is, for an integer `k`
of magnitude up to `2^50`. -/
theorem ToFixed_stable (p : Int) (h0 : 0 ≤ p) (h22 : p ≤ 22) (k : Int)
    (hk : |(k : ℚ)| ≤ (2 : ℚ) ^ (50 : Nat)) :
    ToFixed (toF64 ((k : ℚ) / (10 : ℚ) ^ p)) p = toF64 ((k : ℚ) / (10 : ℚ) ^ p) := by
  have hT : (0 : ℚ) < (10 : ℚ) ^ p := zpow_pos (by norm_num) p
  have hT1 : (1 : ℚ) ≤ (10 : ℚ) ^ p := one_le_zpow₀ (by norm_num) h0
  have hT2 : (10 : ℚ) ^ p ≤ (2 : ℚ) ^ (74 : Nat) := by
    have : (10 : ℚ) ^ p ≤ (10 : ℚ) ^ (22 : Int) := zpow_le_zpow_right₀ (by norm_num) h22
    have h3 : (10 : ℚ) ^ (22 : Int) ≤ (2 : ℚ) ^ (74 : Nat) := by norm_num
    linarith
  by_cases hk0 : k = 0
  · subst hk0
    simp only [Int.cast_zero, zero_div, toF64_zero]
    rw [ToFixed_of_product 0 p h0 h22 0 (by rw [zero_mul, toF64_zero])]
    have : Round 0 = 0 := by norm_num [Round]
    rw [this, zero_div, toF64_zero]
  · have hk1 : (1 : ℚ) ≤ |(k : ℚ)| := by
      have : (1 : Int) ≤ |k| := Int.one_le_abs hk0
      exact_mod_cast this
    have habs1 : |(k : ℚ) / (10 : ℚ) ^ p| = |(k : ℚ)| / (10 : ℚ) ^ p := by
      rw [abs_div, abs_of_pos hT]
    -- the first rounding
    have hlo1 : (2 : ℚ) ^ (-1022 : Int) ≤ |(k : ℚ) / (10 : ℚ) ^ p| := by
      apply tiny_le
      rw [habs1]
      calc (1 : ℚ) / (2 : ℚ) ^ (74 : Nat) ≤ 1 / (10 : ℚ) ^ p :=
            one_div_le_one_div_of_le hT hT2
        _ ≤ |(k : ℚ)| / (10 : ℚ) ^ p := div_le_div_of_nonneg_right hk1 (le_of_lt hT)
    have hhi1 : |(k : ℚ) / (10 : ℚ) ^ p| < (2 : ℚ) ^ (1023 : Nat) := by
      apply lt_huge
      rw [habs1]
      have : |(k : ℚ)| / (10 : ℚ) ^ p ≤ |(k : ℚ)| := div_le_self (abs_nonneg _) hT1
      have h50 : (2 : ℚ) ^ (50 : Nat) ≤ (2 : ℚ) ^ (52 : Nat) := by norm_num
      linarith
    obtain ⟨y, hy, hyerr⟩ := toF64_error _ hlo1 hhi1
    -- the product
    have hprod : |y * (10 : ℚ) ^ p - (k : ℚ)| ≤ |(k : ℚ)| / 2 ^ (53 : Nat) := by
      have : y * (10 : ℚ) ^ p - (k : ℚ) = (y - (k : ℚ) / (10 : ℚ) ^ p) * (10 : ℚ) ^ p := by
        field_simp
      rw [this, abs_mul, abs_of_pos hT]
      calc |y - (k : ℚ) / (10 : ℚ) ^ p| * (10 : ℚ) ^ p
          ≤ |(k : ℚ) / (10 : ℚ) ^ p| / 2 ^ (53 : Nat) * (10 : ℚ) ^ p :=
            mul_le_mul_of_nonneg_right hyerr (le_of_lt hT)
        _ = |(k : ℚ)| / 2 ^ (53 : Nat) := by
            rw [habs1]
            field_simp
            ring
    have hsmall : |(k : ℚ)| / 2 ^ (53 : Nat) ≤ 1 / 8 := by
      rw [div_le_iff₀ (by positivity)]
      have : (1 : ℚ) / 8 * 2 ^ (53 : Nat) = (2 : ℚ) ^ (50 : Nat) := by norm_num
      rw [this]
      exact hk
    have hx2lo : |(k : ℚ)| - |(k : ℚ)| / 2 ^ (53 : Nat) ≤ |y * (10 : ℚ) ^ p| := by
      have := abs_sub_abs_le_abs_sub (k : ℚ) (y * (10 : ℚ) ^ p)
      rw [abs_sub_comm] at this
      linarith
    have hx2hi : |y * (10 : ℚ) ^ p| ≤ |(k : ℚ)| + |(k : ℚ)| / 2 ^ (53 : Nat) := by
      have := abs_sub_abs_le_abs_sub (y * (10 : ℚ) ^ p) (k : ℚ)
      linarith
    have hlo2 : (2 : ℚ) ^ (-1022 : Int) ≤ |y * (10 : ℚ) ^ p| := by
      apply tiny_le
      have : (1 : ℚ) / (2 : ℚ) ^ (74 : Nat) ≤ 1 / 2 := by norm_num
      linarith
    have hhi2 : |y * (10 : ℚ) ^ p| < (2 : ℚ) ^ (1023 : Nat) := by
      apply lt_huge
      have h50 : (2 : ℚ) ^ (50 : Nat) + 1 / 8 ≤ (2 : ℚ) ^ (52 : Nat) := by norm_num
      linarith
    obtain ⟨z, hz, hzerr⟩ := toF64_error _ hlo2 hhi2
    have hzk : |z - (k : ℚ)| < 1 / 2 := by
      have h1 : |z - (k : ℚ)| ≤ |z - y * (10 : ℚ) ^ p| + |y * (10 : ℚ) ^ p - (k : ℚ)| :=
        abs_sub_le _ _ _
      have h2 : |y * (10 : ℚ) ^ p| / 2 ^ (53 : Nat) ≤ 1 / 4 := by
        rw [div_le_iff₀ (by positivity)]
        have : (1 : ℚ) / 4 * 2 ^ (53 : Nat) = (2 : ℚ) ^ (51 : Nat) := by norm_num
        rw [this]
        have h50 : (2 : ℚ) ^ (50 : Nat) + 1 / 8 ≤ (2 : ℚ) ^ (51 : Nat) := by norm_num
        linarith
      linarith
    rw [hy, ToFixed_of_product y p h0 h22 z hz, Round_eq_of_lt z k hzk, hy]

/-- The `float64` nearest to a positive `x` in the normal range, from the binary
exponent `L` of `x` and the value `k` of the rounding of `x / 2^(L-52)`. -/
theorem toF64_pos_of_round (x : ℚ) (L k : Int) (hx : 0 < x) (h1 : (2 : ℚ) ^ L ≤ x)
    (h2 : x < (2 : ℚ) ^ (L + 1)) (h3 : -1022 ≤ L)
    (hk : roundHalfEven (x / (2 : ℚ) ^ (L - 52)) = k)
    (hfin : (k : ℚ) * (2 : ℚ) ^ (L - 52) < (2 : ℚ) ^ (1024 : Nat)) :
    toF64 x = F64.finite ((k : ℚ) * (2 : ℚ) ^ (L - 52)) := by
  have habs : |x| = x := abs_of_pos hx
  have he : ulpExp x = L - 52 := ulpExp_eq x L (by rw [habs]; exact h1) (by rw [habs]; exact h2) h3
  unfold toF64
  simp only [he, habs, hk]
  rw [if_neg (not_le.2 hfin), if_neg (not_lt.2 (le_of_lt hx))]

theorem toF64_fifteen_thousandths :
    toF64 (15 / 1000) = F64.finite (1080863910568919 / 72057594037927936) := by
  rw [toF64_pos (15 / 1000) (-7) 8646911284551352 (by norm_num) (by norm_num) (by norm_num)
    (by norm_num) (by norm_num [abs_lt]) (by norm_num)]
  norm_num

theorem product_fifteen_thousandths :
    toF64 (1080863910568919 / 72057594037927936 * (10 : ℚ) ^ (2 : Int)) =
      F64.finite (3 / 2) := by
  rw [toF64_pos _ 0 6755399441055744 (by norm_num) (by norm_num) (by norm_num)
    (by norm_num) (by norm_num [abs_lt]) (by norm_num)]
  norm_num

theorem ToFixed_fifteen_thousandths :
    ToFixed (F64.finite (1080863910568919 / 72057594037927936)) 2 =
      F64.finite (5764607523034235 / 288230376151711744) := by
  have hprod := product_fifteen_thousandths
  have hround : Round (3 / 2) = 2 := by norm_num [Round]
  rw [ToFixed_of_product _ 2 (by norm_num) (by norm_num) _ hprod, hround]
  rw [toF64_pos _ (-6) 5764607523034235 (by norm_num) (by norm_num) (by norm_num)
    (by norm_num) (by norm_num [abs_lt]) (by norm_num)]
  norm_num

theorem ToFixed_large_once :
    ToFixed (F64.finite (303348054571829 / 8)) 2 = F64.finite (4853568873149265 / 128) := by
  have hprod : toF64 (303348054571829 / 8 * (10 : ℚ) ^ (2 : Int)) =
      F64.finite (7583701364295725 / 2) := by
    rw [toF64_pos _ 51 7583701364295725 (by norm_num) (by norm_num) (by norm_num)
      (by norm_num) (by norm_num [abs_lt]) (by norm_num)]
    norm_num
  have hround : Round (7583701364295725 / 2) = 3791850682147863 := by norm_num [Round]
  rw [ToFixed_of_product _ 2 (by norm_num) (by norm_num) _ hprod, hround]
  rw [toF64_pos _ 45 4853568873149265 (by norm_num) (by norm_num) (by norm_num)
    (by norm_num) (by norm_num [abs_lt]) (by norm_num)]
  norm_num

theorem ToFixed_large_twice :
    ToFixed (F64.finite (4853568873149265 / 128)) 2 =
      F64.finite (2426784436574633 / 64) := by
  have hprod : toF64 (4853568873149265 / 128 * (10 : ℚ) ^ (2 : Int)) =
      F64.finite (7583701364295727 / 2) := by
    rw [toF64_pos _ 51 7583701364295727 (by norm_num) (by norm_num) (by norm_num)
      (by norm_num) (by norm_num [abs_lt]) (by norm_num)]
    norm_num
  have hround : Round (7583701364295727 / 2) = 3791850682147864 := by norm_num [Round]
  rw [ToFixed_of_product _ 2 (by norm_num) (by norm_num) _ hprod, hround]
  rw [toF64_pos _ 45 4853568873149266 (by norm_num) (by norm_num) (by norm_num)
    (by norm_num) (by norm_num [abs_lt]) (by norm_num)]
  norm_num

theorem ToFixed_example_direction :
    ToFixed (toF64 (123456 / 100000)) 2 = toF64 (123 / 100) := by
  have hin : toF64 (123456 / 100000) = F64.finite (694995494495815 / 562949953421312) := by
    rw [toF64_pos _ 0 5559963955966520 (by norm_num) (by norm_num) (by norm_num)
      (by norm_num) (by norm_num [abs_lt]) (by norm_num)]
    norm_num
  have hprod : toF64 (694995494495815 / 562949953421312 * (10 : ℚ) ^ (2 : Int)) =
      F64.finite (1085930460149711 / 8796093022208) := by
    rw [toF64_pos_of_round _ 6 8687443681197688 (by norm_num) (by norm_num) (by norm_num)
      (by norm_num) (by norm_num [roundHalfEven]) (by norm_num)]
    norm_num
  rw [hin, ToFixed_of_product _ 2 (by norm_num) (by norm_num) _ hprod,
    Round_eq_of_lt _ 123 (by norm_num [abs_lt])]
  norm_num

theorem ToFixed_example_longitude :
    ToFixed (toF64 (116123456789 / 1000000000)) 8 = toF64 (11612345679 / 100000000) := by
  have hin : toF64 (116123456789 / 1000000000) =
      F64.finite (8171461823811161 / 70368744177664) := by
    rw [toF64_pos _ 6 8171461823811161 (by norm_num) (by norm_num) (by norm_num)
      (by norm_num) (by norm_num [abs_lt]) (by norm_num)]
    norm_num
  have hprod : toF64 (8171461823811161 / 70368744177664 * (10 : ℚ) ^ (8 : Int)) =
      F64.finite (6088213491299123 / 524288) := by
    rw [toF64_pos _ 33 6088213491299123 (by norm_num) (by norm_num) (by norm_num)
      (by norm_num) (by norm_num [abs_lt]) (by norm_num)]
    norm_num
  rw [hin, ToFixed_of_product _ 8 (by norm_num) (by norm_num) _ hprod,
    Round_eq_of_lt _ 11612345679 (by norm_num [abs_lt])]
  norm_num

theorem toF64_ne_nan (x : ℚ) : toF64 x ≠ F64.nan := by
  unfold toF64
  simp only
  split <;> simp

theorem ToFixed_nan (p : Int) : ToFixed F64.nan p = F64.nan := by
  unfold ToFixed
  cases Pow10 p <;> rfl

theorem ToFixed_inf (p : Int) (h0 : 0 ≤ p) (h22 : p ≤ 22) (s : Bool) :
    ToFixed (F64.inf s) p = F64.inf s := by
  have hpos : (0 : ℚ) < (10 : ℚ) ^ p := zpow_pos (by norm_num) p
  unfold ToFixed
  simp only [Pow10_exact p h0 h22, F64.mul, ne_of_gt hpos, if_false, F64.Round, F64.div,
    not_lt.2 (le_of_lt hpos), decide_False, Bool.xor_false]

/-- Claim C16, refuted as stated: at the `float64` nearest to 0.015 and precision 2 the
exact product is below 1.5, so the formula of the claim gives 1/100, while the
`float64` product is 1.5 and `ToFixed` returns the `float64` nearest to 0.02; and at
37918506821478.625 a second application of `ToFixed` changes the result of the first. -/
theorem ToFixed_differs_from_exact_rounding :
    toF64 (15 / 1000) = F64.finite (1080863910568919 / 72057594037927936) ∧
      ToFixedExact (1080863910568919 / 72057594037927936) 2 = 1 / 100 ∧
      ToFixed (F64.finite (1080863910568919 / 72057594037927936)) 2 =
        F64.finite (5764607523034235 / 288230376151711744) ∧
      F64.finite (5764607523034235 / 288230376151711744) ≠ F64.finite (1 / 100) ∧
      F64.finite (5764607523034235 / 288230376151711744) ≠ toF64 (1 / 100) ∧
      ToFixed (ToFixed (F64.finite (303348054571829 / 8)) 2) 2 ≠
        ToFixed (F64.finite (303348054571829 / 8)) 2 := by
  refine ⟨toF64_fifteen_thousandths, by norm_num [ToFixedExact, Round],
    ToFixed_fifteen_thousandths, by norm_num, ?_, ?_⟩
  · rw [toF64_pos (1 / 100) (-7) 5764607523034235 (by norm_num) (by norm_num) (by norm_num)
      (by norm_num) (by norm_num [abs_lt]) (by norm_num)]
    norm_num
  · rw [ToFixed_large_once, ToFixed_large_twice]
    norm_num

/-- Claim C16, amended: for a finite `num` and `0 <= p <= 22`, where `10^p` is itself a
`float64`, `ToFixed num p` is the `float64` nearest to `k / 10^p` for the integer `k`
nearest, halves away from zero, to the `float64` product of `num` and `10^p` (within
`2^-53` of the exact product in relative terms), not to the exact product; a product
that overflows gives that infinity, and NaN and the infinities come back as they are.
`ToFixed 1.23456 2` is the `float64` 1.23 and `ToFixed 116.123456789 8` the `float64`
116.12345679, and rounding twice is rounding once whenever `|k| <= 2^50`.
`GetCarsByName` and `GetPeopleByName` answer a successful fetch with the fetched rows
in which direction is rounded with `p = 2`, longitude and latitude with `p = 8`, and
every other field is as fetched. -/
theorem ToFixed_rounds_float_product (q : ℚ) (p : Int) (h0 : 0 ≤ p) (h22 : p ≤ 22) :
    Pow10 p = F64.finite ((10 : ℚ) ^ p) ∧
      toF64 (q * (10 : ℚ) ^ p) ≠ F64.nan ∧
      (∀ y, toF64 (q * (10 : ℚ) ^ p) = F64.finite y →
        ∃ k : Int, Round y = (k : ℚ) ∧ |y - k| ≤ 1 / 2 ∧
          (|y - k| = 1 / 2 → |y| < |(k : ℚ)|) ∧
          ToFixed (F64.finite q) p = toF64 ((k : ℚ) / (10 : ℚ) ^ p) ∧
          (|(k : ℚ)| ≤ (2 : ℚ) ^ (50 : Nat) →
            ToFixed (ToFixed (F64.finite q) p) p = ToFixed (F64.finite q) p)) ∧
      ((2 : ℚ) ^ (-1022 : Int) ≤ |q * (10 : ℚ) ^ p| →
        |q * (10 : ℚ) ^ p| < (2 : ℚ) ^ (1023 : Nat) →
        ∃ y, toF64 (q * (10 : ℚ) ^ p) = F64.finite y ∧
          |y - q * (10 : ℚ) ^ p| ≤ |q * (10 : ℚ) ^ p| / 2 ^ (53 : Nat)) ∧
      (∀ s, toF64 (q * (10 : ℚ) ^ p) = F64.inf s → ToFixed (F64.finite q) p = F64.inf s) ∧
      ToFixed F64.nan p = F64.nan ∧
      (∀ s, ToFixed (F64.inf s) p = F64.inf s) ∧
      ToFixed (toF64 (123456 / 100000)) 2 = toF64 (123 / 100) ∧
      ToFixed (toF64 (116123456789 / 1000000000)) 8 = toF64 (11612345679 / 100000000) ∧
      (∀ one : CarV2,
        roundCar one =
          { Step := one.Step, Id := one.Id, LaneId := one.LaneId,
            Direction := ToFixed one.Direction 2, Lng := ToFixed one.Lng 8,
            Lat := ToFixed one.Lat 8, Model := one.Model, Z := one.Z, Pitch := one.Pitch,
            V := one.V, NumPassengers := one.NumPassengers }) ∧
      (∀ one : Person,
        roundPerson one =
          { Step := one.Step, Id := one.Id, ParentId := one.ParentId,
            Direction := ToFixed one.Direction 2, Lng := ToFixed one.Lng 8,
            Lat := ToFixed one.Lat 8, Z := one.Z, V := one.V, Model := one.Model }) ∧
      (∀ (t : Tables) (name : String) (s : StepCoordinate),
        (t.people (peopleQuery name s)).2 = none →
        GetPeopleByName t name s =
          Outcome.returned
            [(200, NewResponse ((t.people (peopleQuery name s)).1.map roundPerson))] ()) ∧
      ∀ (w : World) (t : Tables) (name : String) (s : StepCoordinate) (m : Metadata),
        (w.QueryMetadata name).2 = none → (w.QueryMetadata name).1.head? = some m →
        m.Version = 2 → (t.cars (carQuery name s)).2 = none →
        GetCarsByName w t name s =
          Outcome.returned
            [(200, NewResponse ((t.cars (carQuery name s)).1.map roundCar))] () := by
  refine ⟨Pow10_exact p h0 h22, toF64_ne_nan _, ?_, fun hlo hhi => toF64_error _ hlo hhi,
    fun s hs => ToFixed_of_overflow q p h0 h22 s hs, ToFixed_nan p,
    fun s => ToFixed_inf p h0 h22 s, ToFixed_example_direction, ToFixed_example_longitude,
    fun _ => rfl, fun _ => rfl, ?_, ?_⟩
  · intro y hy
    obtain ⟨k, hk, h1, h2⟩ := Round_spec y
    have hfix : ToFixed (F64.finite q) p = toF64 ((k : ℚ) / (10 : ℚ) ^ p) := by
      rw [ToFixed_of_product q p h0 h22 y hy, hk]
    refine ⟨k, hk, h1, h2, hfix, ?_⟩
    intro hbound
    rw [hfix]
    exact ToFixed_stable p h0 h22 k hbound
  · intro t name s herr
    simp [GetPeopleByName, herr]
  · intro w t name s m h1 h2 h3 h4
    unfold GetCarsByName
    cases hm : (w.QueryMetadata name).1 with
    | nil =>
      rw [hm] at h2
      cases h2
    | cons m0 rest =>
      rw [hm] at h2
      simp only [List.head?_cons, Option.some.injEq] at h2
      subst h2
      simp [h1, h3, h4]

theorem ToFixed_rounds_float_product_witness :
    (0 : Int) ≤ 2 ∧ (2 : Int) ≤ 22 ∧
      toF64 (1080863910568919 / 72057594037927936 * (10 : ℚ) ^ (2 : Int)) =
        F64.finite (3 / 2) ∧
      ∃ k : Int, Round (3 / 2) = (k : ℚ) ∧ |(3 / 2 : ℚ) - k| ≤ 1 / 2 ∧
        (|(3 / 2 : ℚ) - k| = 1 / 2 → |(3 / 2 : ℚ)| < |(k : ℚ)|) ∧
        ToFixed (F64.finite (1080863910568919 / 72057594037927936)) 2 =
          toF64 ((k : ℚ) / (10 : ℚ) ^ (2 : Int)) ∧
        (|(k : ℚ)| ≤ (2 : ℚ) ^ (50 : Nat) →
          ToFixed (ToFixed (F64.finite (1080863910568919 / 72057594037927936)) 2) 2 =
            ToFixed (F64.finite (1080863910568919 / 72057594037927936)) 2) :=
  ⟨by norm_num, by norm_num, product_fifteen_thousandths,
    (ToFixed_rounds_float_product (1080863910568919 / 72057594037927936) 2 (by norm_num)
      (by norm_num)).2.2.1 (3 / 2) product_fifteen_thousandths⟩

/-! ## The interval cache -/

theorem resolveInterval_hit {δ : Type} (w : World) (c : IntervalCache) (name : String)
    (i : Int) (hc : c name = some i) :
    (resolveInterval w c name : Except (StatusRun δ) _) = Except.ok (i, c, []) := by
  unfold resolveInterval
  rw [hc]

theorem resolveInterval_error {δ : Type} (w : World) (c : IntervalCache) (name : String)
    (e : String) (hc : c name = none) (he : (w.QueryMetadata name).2 = some e) :
    (resolveInterval w c name : Except (StatusRun δ) _) =
      Except.error { outcome := abort 500 (some e) (), cache := c, lookups := [name],
                     fetches := [] } := by
  unfold resolveInterval
  rw [hc]
  simp only [he, Option.isSome_some, if_true]

theorem resolveInterval_no_row {δ : Type} (w : World) (c : IntervalCache) (name : String)
    (hc : c name = none) (he : (w.QueryMetadata name).2 = none)
    (hm : (w.QueryMetadata name).1 = []) :
    (resolveInterval w c name : Except (StatusRun δ) _) =
      Except.error { outcome := abort 404 (some "no found") (), cache := c,
                     lookups := [name], fetches := [] } := by
  unfold resolveInterval
  rw [hc]
  simp only [he, hm, Option.isSome_none, Bool.false_eq_true, if_false]

theorem resolveInterval_no_interval {δ : Type} (w : World) (c : IntervalCache)
    (name : String) (m : Metadata) (rest : List Metadata) (hc : c name = none)
    (he : (w.QueryMetadata name).2 = none) (hm : (w.QueryMetadata name).1 = m :: rest)
    (hi : m.RoadStatusInterval = none) :
    (resolveInterval w c name : Except (StatusRun δ) _) =
      Except.error { outcome := abort 400 (some "no road status information") (),
                     cache := c, lookups := [name], fetches := [] } := by
  unfold resolveInterval
  rw [hc]
  simp only [he, hm, hi, Option.isSome_none, Bool.false_eq_true, if_false]

theorem resolveInterval_found {δ : Type} (w : World) (c : IntervalCache) (name : String)
    (m : Metadata) (rest : List Metadata) (v : Int) (hc : c name = none)
    (he : (w.QueryMetadata name).2 = none) (hm : (w.QueryMetadata name).1 = m :: rest)
    (hi : m.RoadStatusInterval = some v) :
    (resolveInterval w c name : Except (StatusRun δ) _) =
      Except.ok (v, cacheSet c name v, [name]) := by
  unfold resolveInterval
  rw [hc]
  simp only [he, hm, hi, Option.isSome_none, Bool.false_eq_true, if_false]

/-- The part of the protocol that does not depend on what the metadata lookup gives:
a run that on a hit fetches with the cached interval, and on a miss looks the name up
once, ends as `onMiss` says and writes the entry `written`, if any. -/
theorem cacheProtocol_frame {δ : Type} (name : String) (s : Step)
    (run : IntervalCache → StatusRun δ) (finish : Int → Outcome δ Unit)
    (onMiss : Outcome δ Unit) (written : Option Int)
    (hhit : ∀ c i, c name = some i →
      run c = { outcome := finish i, cache := c, lookups := [],
                fetches := [roadStatusQuery name s i] })
    (hmiss : ∀ c, c name = none →
      run c = { outcome := onMiss
                cache := match written with
                  | some v => cacheSet c name v
                  | none => c
                lookups := [name]
                fetches := match written with
                  | some v => [roadStatusQuery name s v]
                  | none => [] })
    (cache : IntervalCache) :
    (∀ i, cache name = some i →
      (run cache).lookups = [] ∧ (run cache).fetches = [roadStatusQuery name s i] ∧
        (run cache).cache = cache) ∧
    (cache name = none → (run cache).lookups = [name]) ∧
    (∀ k, k ≠ name → (run cache).cache k = cache k) ∧
    ∀ cache2 : IntervalCache, cache2 name = cache name →
      (run cache2).outcome = (run cache).outcome ∧
        (run cache2).lookups = (run cache).lookups ∧
        (run cache2).fetches = (run cache).fetches ∧
        (run cache2).cache name = (run cache).cache name := by
  refine ⟨?_, ?_, ?_, ?_⟩
  · intro i hc
    rw [hhit cache i hc]
    exact ⟨rfl, rfl, rfl⟩
  · intro hc
    rw [hmiss cache hc]
  · intro k hk
    cases hc : cache name with
    | some i => rw [hhit cache i hc]
    | none =>
      rw [hmiss cache hc]
      cases written with
      | none => rfl
      | some v => simp only [cacheSet, hk, if_false]
  · intro cache2 h2
    cases hc : cache name with
    | some i =>
      rw [hc] at h2
      rw [hhit cache i hc, hhit cache2 i h2]
      exact ⟨rfl, rfl, rfl, h2.trans hc.symm⟩
    | none =>
      rw [hc] at h2
      rw [hmiss cache hc, hmiss cache2 h2]
      cases written with
      | none => exact ⟨rfl, rfl, rfl, h2.trans hc.symm⟩
      | some v => exact ⟨rfl, rfl, rfl, by simp only [cacheSet, if_true]⟩

/-- A run that ends where `resolveInterval` ends in an error, and otherwise fetches once
with the resolved interval and ends as `finish` says, keeps the protocol of the cache. -/
theorem cacheProtocol_of_resolve {δ : Type} (w : World) (name : String) (s : Step)
    (run : IntervalCache → StatusRun δ) (finish : Int → Outcome δ Unit)
    (herror : ∀ c r, resolveInterval w c name = Except.error r → run c = r)
    (hok : ∀ c i c2 l,
      (resolveInterval w c name : Except (StatusRun δ) _) = Except.ok (i, c2, l) →
      run c = { outcome := finish i, cache := c2, lookups := l,
                fetches := [roadStatusQuery name s i] }) :
    CacheProtocol w name s run := by
  intro cache
  have hhit : ∀ (c : IntervalCache) (i : Int), c name = some i →
      run c = { outcome := finish i, cache := c, lookups := [],
                fetches := [roadStatusQuery name s i] } :=
    fun c i hc => hok c i c [] (resolveInterval_hit w c name i hc)
  rcases he : (w.QueryMetadata name).2 with _ | e
  · rcases hm : (w.QueryMetadata name).1 with _ | ⟨m, rest⟩
    · obtain ⟨f1, f2, f3, f4⟩ := cacheProtocol_frame name s run finish
        (abort 404 (some "no found") ()) none hhit
        (fun c hc => herror c _ (resolveInterval_no_row w c name hc he hm)) cache
      refine ⟨f1, f2, ?_, ?_, f3, f4⟩
      · intro m v _ _ h2 _
        cases h2
      · intro hc _
        rw [herror cache _ (resolveInterval_no_row w cache name hc he hm)]
        exact ⟨rfl, rfl, 404, "no found", rfl⟩
    · rcases hi : m.RoadStatusInterval with _ | v
      · obtain ⟨f1, f2, f3, f4⟩ := cacheProtocol_frame name s run finish
          (abort 400 (some "no road status information") ()) none hhit
          (fun c hc => herror c _ (resolveInterval_no_interval w c name m rest hc he hm hi))
          cache
        refine ⟨f1, f2, ?_, ?_, f3, f4⟩
        · intro m2 v2 _ _ h2 h3
          simp only [List.head?_cons, Option.some.injEq] at h2
          subst h2
          rw [hi] at h3
          cases h3
        · intro hc _
          rw [herror cache _ (resolveInterval_no_interval w cache name m rest hc he hm hi)]
          exact ⟨rfl, rfl, 400, "no road status information", rfl⟩
      · obtain ⟨f1, f2, f3, f4⟩ := cacheProtocol_frame name s run finish
          (finish v) (some v) hhit
          (fun c hc => hok c v _ _ (resolveInterval_found w c name m rest v hc he hm hi))
          cache
        refine ⟨f1, f2, ?_, ?_, f3, f4⟩
        · intro m2 v2 hc _ h2 h3
          simp only [List.head?_cons, Option.some.injEq] at h2
          subst h2
          rw [hi] at h3
          cases h3
          rw [hok cache v _ _ (resolveInterval_found w cache name m rest v hc he hm hi)]
          exact ⟨rfl, rfl⟩
        · intro _ herr
          rcases herr with h | h | ⟨m2, h, hi2⟩
          · exact absurd rfl h
          · cases h
          · simp only [List.head?_cons, Option.some.injEq] at h
            subst h
            rw [hi] at hi2
            cases hi2
  · obtain ⟨f1, f2, f3, f4⟩ := cacheProtocol_frame name s run finish
      (abort 500 (some e) ()) none hhit
      (fun c hc => herror c _ (resolveInterval_error w c name e hc he)) cache
    refine ⟨f1, f2, ?_, ?_, f3, f4⟩
    · intro m v _ h1 _ _
      cases h1
    · intro hc _
      rw [herror cache _ (resolveInterval_error w cache name e hc he)]
      exact ⟨rfl, rfl, 500, e, rfl⟩

/-- Claim C17: `GetRoadStatusByName` and `GetRoadStatusStatByName` keep the protocol
of the interval cache (`CacheProtocol`): on a hit for the requested name the cached
value is the fetch interval, no metadata lookup is made and the cache stays as it is;
on a miss the metadata is looked up once, a row with the interval `v` makes exactly the
entry `name -> v` written and `v` the fetch interval, and a failed lookup, no row or a
row without interval leaves the cache unchanged and fetches nothing; no entry of
another name is changed or looked at. -/
theorem interval_cache_protocol (w : World) (t : Tables) (name : String) (s : Step) :
    CacheProtocol w name s (fun cache => GetRoadStatusByName w t cache name s) ∧
      CacheProtocol w name s (fun cache => GetRoadStatusStatByName w t cache name s) ∧
      (GetRoadStatusStatByName (worldFromPg noRowsPg (collectionOf [])) noTables sampleCache
          "sim" { Begin := 0, End := 10, Interval := 1 }).fetches =
        [roadStatusQuery "sim" { Begin := 0, End := 10, Interval := 1 } 5] ∧
      (GetRoadStatusByName (worldFromPg (oneRowPg sampleMeta) (collectionOf [])) noTables
          emptyCache "sim" { Begin := 0, End := 10, Interval := 1 }).cache "sim" = some 1 := by
  refine ⟨?_, ?_, by decide, by decide⟩
  · apply cacheProtocol_of_resolve w name s _ (fun interval =>
      if (t.roadStatus (roadStatusQuery name s interval)).2.isSome then
        abort 500 (t.roadStatus (roadStatusQuery name s interval)).2 ()
      else Outcome.returned
        [(200, NewResponse (t.roadStatus (roadStatusQuery name s interval)).1)] ())
    · intro c r h
      simp only [GetRoadStatusByName, h]
    · intro c i c2 l h
      simp only [GetRoadStatusByName, h]
  · apply cacheProtocol_of_resolve w name s _ (fun interval =>
      if (t.roadStatus (roadStatusQuery name s interval)).2.isSome then
        abort 500 (t.roadStatus (roadStatusQuery name s interval)).2 ()
      else Outcome.returned
        [(200, NewResponse
          (roadStatusStat (t.roadStatus (roadStatusQuery name s interval)).1))] ())
    · intro c r h
      simp only [GetRoadStatusStatByName, h]
    · intro c i c2 l h
      simp only [GetRoadStatusStatByName, h]

end Simple
